import Mathlib

/-!
Verification of the win16ne New-Executable (NE) reader and x86 decoder.

This file is a shallow embedding of the Rust sources into Lean 4:
pure Rust functions become Lean functions; readers over `std::io`
streams become explicit state passing over a byte list; machine
integers (`u8`/`u16`/`u32`/`u64`) become `Nat`, with wrapping written
explicitly where the source can overflow, and the unchecked arithmetic
of the source modeled as the checked (aborting) semantics of a Rust
debug build via an explicit `overflow` error; fallible code returns
`Except`.  Bytes delivered by a real stream are below 256; theorems
that need this state it as a hypothesis, all definitions are total on
`Nat`.

Renamings forced by the Lean setting are noted next to each definition;
otherwise names follow the source (`src/x86.rs`, `src/ne/*.rs`,
`src/mz.rs`).
-/

/-! ## Byte-level helpers (src/util, `u16::from_le_bytes` etc.) -/

/-- `u16::from_le_bytes([b0, b1])`. -/
def le16 (b0 b1 : Nat) : Nat := b0 + 256 * b1

/-- `u32::from_le_bytes([b0, b1, b2, b3])`. -/
def le32 (b0 b1 b2 b3 : Nat) : Nat :=
  b0 + 256 * b1 + 65536 * b2 + 16777216 * b3

/-! ## src/x86.rs : the instruction decoder -/

/-- `ImmediateSize` from src/x86.rs. -/
inductive ImmediateSize where
  | None
  | Byte
  | Word
  | DWord
deriving Repr, DecidableEq

/-- `Immediate` from src/x86.rs. -/
inductive Immediate where
  | None
  | Byte (v : Nat)
  | Word (v : Nat)
  | DWord (v : Nat)
deriving Repr, DecidableEq

/-- `Immediate::len` from src/x86.rs. -/
def Immediate.len : Immediate → Nat
  | .None => 0
  | .Byte _ => 1
  | .Word _ => 2
  | .DWord _ => 4

/-- `struct EatError;` from src/x86.rs. -/
inductive EatError where
  | mk
deriving Repr, DecidableEq

/-- `SimpleEater` from src/x86.rs: a cursor over the code slice. -/
structure SimpleEater where
  code : List Nat
  pos : Nat
deriving Repr, DecidableEq

/-- `SimpleEater::new`. -/
def SimpleEater.new (code : List Nat) : SimpleEater := { code := code, pos := 0 }

/-- `SimpleEater::next_if`: consume the next byte when the predicate holds. -/
def SimpleEater.next_if (e : SimpleEater) (f : Nat → Bool) : Option Nat × SimpleEater :=
  if e.pos < e.code.length && f (e.code.getD e.pos 0) then
    (some (e.code.getD e.pos 0), { e with pos := e.pos + 1 })
  else
    (none, e)

/-- `SimpleEater::next`: consume the next byte or fail at the end of the slice. -/
def SimpleEater.next (e : SimpleEater) : Except EatError (Nat × SimpleEater) :=
  if e.pos < e.code.length then
    .ok (e.code.getD e.pos 0, { e with pos := e.pos + 1 })
  else
    .error .mk

/-- `Inst` from src/x86.rs.  The four `*_prefix` fields are renamed to
`*_pfx` here; everything else keeps its source name. -/
structure Inst where
  pos : Nat
  is_invalid : Bool
  is_32c : Bool
  inst_pfx : Option Nat
  addr_pfx : Option Nat
  size_pfx : Option Nat
  segm_pfx : Option Nat
  opcode : Nat
  opcode2 : Option Nat
  modrm : Option Nat
  sib : Option Nat
  displacement : Immediate
  immediate : Immediate
deriving Repr, DecidableEq

/-- `Inst::len` from src/x86.rs. -/
def Inst.len (i : Inst) : Nat :=
  i.inst_pfx.isSome.toNat
    + i.addr_pfx.isSome.toNat
    + i.size_pfx.isSome.toNat
    + i.segm_pfx.isSome.toNat
    + 1
    + i.opcode2.isSome.toNat
    + i.modrm.isSome.toNat
    + i.sib.isSome.toNat
    + i.displacement.len
    + i.immediate.len

/-- `Inst::is_32a`. -/
def Inst.is_32a (i : Inst) : Bool := i.is_32c ^^ i.addr_pfx.isSome

/-- `Inst::is_32d`. -/
def Inst.is_32d (i : Inst) : Bool := i.is_32c ^^ i.size_pfx.isSome

/-- `lookup_byte` from src/x86.rs. -/
def lookup_byte (table : List Nat) (byte : Nat) : Bool :=
  (table.getD (byte >>> 5) 0 >>> (byte &&& 31)) &&& 1 != 0

/-- `split233` from src/x86.rs. -/
def split233 (byte : Nat) : Nat × Nat × Nat :=
  (byte >>> 6, (byte >>> 3) &&& 7, byte &&& 7)

/-- `OPCODE_VALIDITY_MAP` from `eat` in src/x86.rs (underscores of the
source's binary literals dropped: Lean numerals take no separators). -/
def OPCODE_VALIDITY_MAP : List Nat := [
  0b11111111111111111111111111111111,
  0b10111111101111111011111110111111,
  0b11111111111111111111111111111111,
  0b11111111111111111111111100001111,
  0b11111111111111111111111111111011,
  0b11111111111111111111111111111111,
  0b11111111101111111111111111111111,
  0b11111111111100001111111111111111]

/-- `OPCODE2_VALIDITY_MAP` from `eat` in src/x86.rs. -/
def OPCODE2_VALIDITY_MAP : List Nat := [
  0b00000000000000000000000001001111,
  0b00000000000000000000000001011111,
  0b00000000000000000000000000000000,
  0b00000000000000000000000000000000,
  0b11111111111111111111111111111111,
  0b11111100111111001011101100111011,
  0b00000000000000000000000000000000,
  0b00000000000000000000000000000000]

/-- `HAS_MODRM` from `eat` in src/x86.rs. -/
def HAS_MODRM : List Nat := [
  0b00111111001111110011111100111111,
  0b00111111001111110011111100111111,
  0b00000000000000000000000000000000,
  0b00000000000000001111101000001100,
  0b00000000000000001111111111111011,
  0b00000000000000000000000000000000,
  0b00000000000011110000000011110011,
  0b11000000110000001111000000000000]

/-- `HAS_MODRM2` from `eat` in src/x86.rs. -/
def HAS_MODRM2 : List Nat := [
  0b00000000000000000000000000001100,
  0b00000000000000000000000001011111,
  0b00000000000000000000000000000000,
  0b00000000000000000000000000000000,
  0b00000000000000000000000000000000,
  0b11111100111111001011101100111000,
  0b00000000000000000000000000000000,
  0b00000000000000000000000000000000]

/-- `IMMEDIATE_MAP` from `eat` in src/x86.rs. -/
def IMMEDIATE_MAP : List Nat := [
  0b00110000001100000011000000110000,
  0b00110000001100000011000000110000,
  0b00000000000000000000000000000000,
  0b11111111111111110000111100000000,
  0b00000000000000000000000000001011,
  0b11111111111111110000001100000000,
  0b00000000000000000010010111000111,
  0b00000000110000000000111111111111]

/-- `IMMEDIATE_BYTE_MAP` from `eat` in src/x86.rs. -/
def IMMEDIATE_BYTE_MAP : List Nat := [
  0b00010000000100000001000000010000,
  0b00010000000100000001000000010000,
  0b00000000000000000000000000000000,
  0b11111111111111110000010100000000,
  0b00000000000000000000000000001001,
  0b00000000111111110000000100000000,
  0b00000000000000000010000101000001,
  0b00000000000000000000100011111111]

/-- `IMMEDIATE_WIDE_MAP` from `eat` in src/x86.rs. -/
def IMMEDIATE_WIDE_MAP : List Nat := [
  0b00100000001000000010000000100000,
  0b00100000001000000010000000100000,
  0b00000000000000000000000000000000,
  0b00000000000000000000101000000000,
  0b00000000000000000000000000000010,
  0b11111111000000000000001000000000,
  0b00000000000000000000000010000010,
  0b00000000000000000000001100000000]

/-- The `if cond { Some(eater.next()?) } else { None }` pattern used
by `eat` for the second opcode byte, the ModRM byte and the SIB byte. -/
def eatOptByte (cond : Bool) (eater : SimpleEater) :
    Except EatError (Option Nat × SimpleEater) :=
  if cond then do
    let (b, eater) ← eater.next
    pure (some b, eater)
  else
    pure (none, eater)

/-- The `match disp_size { .. }`/`match immediate_size { .. }` reading
pattern of `eat`, duplicated verbatim in the source for the
displacement and the immediate: read 0/1/2/4 little-endian bytes. -/
def eatImmOfSize (sz : ImmediateSize) (eater : SimpleEater) :
    Except EatError (Immediate × SimpleEater) :=
  match sz with
  | ImmediateSize.None => pure (Immediate.None, eater)
  | ImmediateSize.Byte => do
    let (b, eater) ← eater.next
    pure (Immediate.Byte b, eater)
  | ImmediateSize.Word => do
    let (b0, eater) ← eater.next
    let (b1, eater) ← eater.next
    pure (Immediate.Word (le16 b0 b1), eater)
  | ImmediateSize.DWord => do
    let (b0, eater) ← eater.next
    let (b1, eater) ← eater.next
    let (b2, eater) ← eater.next
    let (b3, eater) ← eater.next
    pure (Immediate.DWord (le32 b0 b1 b2 b3), eater)

/-- `eat` from src/x86.rs.  The Lean version also returns the final
eater state, which the source keeps local; the instruction component is
exactly the source's return value. -/
def eat (code : List Nat) (is_32c : Bool) : Except EatError (Inst × SimpleEater) := do
  let eater := SimpleEater.new code
  let (inst_pfx, eater) := eater.next_if (fun b => b == 0xF0 || b == 0xF2 || b == 0xF3)
  let (addr_pfx, eater) := eater.next_if (fun b => b == 0x67)
  let (size_pfx, eater) := eater.next_if (fun b => b == 0x66)
  let (segm_pfx, eater) := eater.next_if
    (fun b => [0x26, 0x2E, 0x36, 0x3E, 0x64, 0x65].any (fun x => b == x))
  let (opcode, eater) ← eater.next
  if !lookup_byte OPCODE_VALIDITY_MAP opcode then
    .error .mk
  else do
  let (opcode2, eater) ← eatOptByte (opcode == 0x0F) eater
  if (match opcode2 with
      | some b2 => !lookup_byte OPCODE2_VALIDITY_MAP b2
      | none => false) then
    .error .mk
  else do
  let has_modrm :=
    match opcode2 with
    | some b2 => lookup_byte HAS_MODRM2 b2
    | none => lookup_byte HAS_MODRM opcode
  let (modrm, eater) ← eatOptByte has_modrm eater
  let is_32a := is_32c ^^ addr_pfx.isSome
  let is_32d := is_32c ^^ size_pfx.isSome
  let has_sib :=
    match modrm with
    | some m => is_32a && (m &&& 56) == 32 && (m &&& 192) != 192
    | none => false
  let (sib, eater) ← eatOptByte has_sib eater
  let disp_size :=
    match modrm with
    | some m =>
      let (mod_, _, rm) := split233 m
      if is_32a then
        if mod_ == 1 then ImmediateSize.Byte
        else if mod_ == 2 then ImmediateSize.DWord
        else if mod_ == 0 && rm == 5 then ImmediateSize.DWord
        else ImmediateSize.None
      else
        if mod_ == 1 then ImmediateSize.Byte
        else if mod_ == 2 then ImmediateSize.Word
        else if mod_ == 0 && rm == 6 then ImmediateSize.Word
        else ImmediateSize.None
    | none => ImmediateSize.None
  let (disp, eater) ← eatImmOfSize disp_size eater
  let immediate_size :=
    if !lookup_byte IMMEDIATE_MAP opcode then ImmediateSize.None
    else if lookup_byte IMMEDIATE_BYTE_MAP opcode then ImmediateSize.Byte
    else if lookup_byte IMMEDIATE_WIDE_MAP opcode then
      if is_32d then ImmediateSize.DWord else ImmediateSize.Word
    else if opcode == 0xC2 || opcode == 0xCA then ImmediateSize.Word
    else ImmediateSize.None
  let (imm, eater) ← eatImmOfSize immediate_size eater
  pure ({ pos := 0
          is_invalid := false
          is_32c := is_32c
          inst_pfx := inst_pfx
          addr_pfx := addr_pfx
          size_pfx := size_pfx
          segm_pfx := segm_pfx
          opcode := opcode
          opcode2 := opcode2
          modrm := modrm
          sib := sib
          displacement := disp
          immediate := imm }, eater)

/-- `gen_invalid` from src/x86.rs. -/
def gen_invalid (byte : Nat) : Inst :=
  { pos := 0
    is_invalid := true
    is_32c := false
    inst_pfx := none
    addr_pfx := none
    size_pfx := none
    segm_pfx := none
    opcode := byte
    opcode2 := none
    modrm := none
    sib := none
    displacement := Immediate.None
    immediate := Immediate.None }

/-- One iteration of the `while pos < code.len()` loop in `disassemble`
(src/x86.rs): decode at `pos`, fall back to `gen_invalid(code[pos])`. -/
def disStep (code : List Nat) (pos : Nat) (is_32 : Bool) : Inst :=
  match eat (code.drop pos) is_32 with
  | .ok (inst, _) => inst
  | .error _ => gen_invalid (code.getD pos 0)

/-- The instruction-collecting loop of `disassemble` from src/x86.rs,
starting at `pos`.  Its well-founded recursion is justified by
`1 <= Inst.len`, which is the forward-progress fact of claim C3. -/
def disassembleLoop (code : List Nat) (is_32 : Bool) (pos : Nat) : List Inst :=
  if h : pos < code.length then
    let inst := { disStep code pos is_32 with pos := pos }
    inst :: disassembleLoop code is_32 (pos + inst.len)
  else
    []
termination_by code.length - pos
decreasing_by
  simp only [Inst.len]
  omega

/-- `disassemble` from src/x86.rs, restricted to the decoded
instruction list `insts`; the `println!` rendering that follows in the
source is pure terminal output and is elided. -/
def disassemble (code : List Nat) (is_32 : Bool) : List Inst :=
  disassembleLoop code is_32 0

/-- `RM16_TABLE` from src/x86.rs. -/
def RM16_TABLE : List String := [
  "(%bx,%si)",
  "(%bx,%di)",
  "(%bp,%si)",
  "(%bp,%di)",
  "(%si)",
  "(%di)",
  "(%bp)",
  "(%bx)"]

/-- `regname` from src/x86.rs. -/
def regname (id : Nat) (is_32d : Bool) (wide : Bool) : String :=
  if !wide then
    (["al", "cl", "dl", "bl", "ah", "ch", "dh", "bh"].getD id "")
  else if !is_32d then
    (["ax", "cx", "dx", "bx", "sp", "bp", "si", "di"].getD id "")
  else
    (["eax", "ecx", "edx", "ebx", "esp", "ebp", "esi", "edi"].getD id "")

/-- Lowercase hexadecimal digits of `n`, as printed by Rust `{:x}`. -/
def hexNat (n : Nat) : String := String.mk (Nat.toDigits 16 n)

/-- `Display for SignedImmDisp` from src/x86.rs.  Rust formats a signed
integer with `{:#x}` as the two's-complement bit pattern of its width,
which equals the stored unsigned value, so the `as i8`/`as i16`/`as
i32` casts do not change the printed text. -/
def SignedImmDisp.fmt : Immediate → String
  | .None => ""
  | .Byte x => "$0x" ++ hexNat x
  | .Word x => "$0x" ++ hexNat x
  | .DWord x => "$0x" ++ hexNat x

/-- `Display for DispDisp` from src/x86.rs (same two's-complement
remark as `SignedImmDisp.fmt`). -/
def DispDisp.fmt : Immediate → String
  | .None => ""
  | .Byte x => "0x" ++ hexNat x
  | .Word x => "0x" ++ hexNat x
  | .DWord x => "0x" ++ hexNat x

/-- `RmDisp` from src/x86.rs. -/
structure RmDisp where
  is_32a : Bool
  is_32d : Bool
  wide : Bool
  modrm : Nat
  disp : Immediate
deriving Repr, DecidableEq

/-- `Display for RmDisp` from src/x86.rs. -/
def RmDisp.fmt (r : RmDisp) : String :=
  let (mod_, _, rm) := split233 r.modrm
  if mod_ == 3 then
    "%" ++ regname rm r.is_32d r.wide
  else if r.is_32a then
    "..."
  else if mod_ == 0 && rm == 6 then
    DispDisp.fmt r.disp
  else if mod_ == 0 then
    RM16_TABLE.getD rm ""
  else
    DispDisp.fmt r.disp ++ RM16_TABLE.getD rm ""

/-- `Inst::rm_name` from src/x86.rs. -/
def Inst.rm_name (i : Inst) (wide : Bool) : RmDisp :=
  { wide := wide
    is_32a := i.is_32a
    is_32d := i.is_32d
    disp := i.displacement
    modrm := i.modrm.getD 0 }

/-- `Inst::reg_name` from src/x86.rs. -/
def Inst.reg_name (i : Inst) (wide : Bool) : String :=
  let (_, reg, _) := split233 (i.modrm.getD 0)
  regname reg i.is_32d wide

/-- `Display for Inst` from src/x86.rs (`Inst::fmt`): the pure text
projection of a decoded instruction.  The source's guarded `match` on
`self.opcode` is written as the equivalent conditional chain. -/
def Inst.fmt (i : Inst) : String :=
  if i.is_invalid then
    "<invalid>"
  else if i.opcode < 0x40 && i.opcode &&& 7 < 6 then
    let opname := ["add", "or", "adc", "sbb", "and", "sub", "xor", "cmp"].getD (i.opcode >>> 3) ""
    if i.opcode &&& 4 == 0 then
      let wide := i.opcode &&& 1 != 0
      let reg := i.reg_name wide
      let rm := i.rm_name wide
      if i.opcode &&& 2 == 0 then
        opname ++ " %" ++ reg ++ ", " ++ rm.fmt
      else
        opname ++ " " ++ rm.fmt ++ ", %" ++ reg
    else
      opname ++ " ..."
  else if i.opcode == 0x55 then
    "nop"
  else if i.opcode == 0x80 || i.opcode == 0x81 || i.opcode == 0x83 then
    let (_, subop, _) := split233 (i.modrm.getD 0)
    let opname := ["add", "or", "adc", "sbb", "and", "sub", "xor", "cmp"].getD subop ""
    let imm := SignedImmDisp.fmt i.immediate
    let rm := i.rm_name (i.opcode != 0x80)
    opname ++ " " ++ imm ++ ", " ++ rm.fmt
  else if 0x88 ≤ i.opcode && i.opcode < 0x8C then
    let wide := i.opcode &&& 1 != 0
    let reg := i.reg_name wide
    let rm := i.rm_name wide
    if i.opcode &&& 2 == 0 then
      "mov %" ++ reg ++ ", " ++ rm.fmt
    else
      "mov " ++ rm.fmt ++ ", %" ++ reg
  else
    "..."

/-! ## src/ne : the container and table decoders

Readers that are generic over `R: Read` in the source can only pull
bytes forward, so they are embedded as functions from the unconsumed
byte list to `Except IoErr (result, rest)`.  Readers that also require
`Seek` are embedded in the state monad `ReadM` further below. -/

/-- The `io::Error` values produced by the decoders.  Message strings
attached by the source (`format!(..)`) are elided; `overflow` models
the abort of a Rust debug build on unchecked integer overflow. -/
inductive IoErr where
  | unexpectedEof
  | invalidData
  | invalidInput
  | overflow
deriving Repr, DecidableEq

/-- `Read::read_exact` into an `n`-byte buffer, over the unconsumed
byte list: yields the buffer and the rest, or `UnexpectedEof`. -/
def takeExact (n : Nat) (l : List Nat) : Except IoErr (List Nat × List Nat) :=
  if n ≤ l.length then .ok (l.take n, l.drop n) else .error .unexpectedEof

/-- `u16::from_le_bytes(buf[pos..pos + 2])` as used by the header
decoders (`get_u16`). -/
def getU16 (buf : List Nat) (pos : Nat) : Nat :=
  le16 (buf.getD pos 0) (buf.getD (pos + 1) 0)

/-- `u32::from_le_bytes(buf[pos..pos + 4])` (`get_u32`). -/
def getU32 (buf : List Nat) (pos : Nat) : Nat :=
  le32 (buf.getD pos 0) (buf.getD (pos + 1) 0) (buf.getD (pos + 2) 0) (buf.getD (pos + 3) 0)

/-- Length accounting for `takeExact`, used by the termination
arguments of the sentinel-driven table loops below. -/
theorem takeExact_ok_length {n : Nat} {l buf rest : List Nat}
    (h : takeExact n l = .ok (buf, rest)) :
    rest.length + n = l.length ∧ buf.length = n := by
  unfold takeExact at h
  split at h
  · cases h
    constructor
    · simp
      omega
    · simp
      omega
  · cases h

/-! ### src/ne/entry_table.rs -/

/-- `FixedSegmentEntry` from src/ne/entry_table.rs. -/
structure FixedSegmentEntry where
  segment : Nat
  flags : Nat
  offset : Nat
deriving Repr, DecidableEq

/-- `FixedSegmentEntry::read`. -/
def FixedSegmentEntry.read (l : List Nat) (segment : Nat) :
    Except IoErr (FixedSegmentEntry × List Nat) := do
  let (buf, l) ← takeExact 3 l
  pure ({ segment := segment
          flags := buf.getD 0 0
          offset := le16 (buf.getD 1 0) (buf.getD 2 0) }, l)

/-- `MoveableSegmentEntry` from src/ne/entry_table.rs (`magic` kept as
the pair of its two bytes). -/
structure MoveableSegmentEntry where
  flags : Nat
  magic : Nat × Nat
  segment : Nat
  offset : Nat
deriving Repr, DecidableEq

/-- `MoveableSegmentEntry::read`. -/
def MoveableSegmentEntry.read (l : List Nat) :
    Except IoErr (MoveableSegmentEntry × List Nat) := do
  let (buf, l) ← takeExact 6 l
  pure ({ flags := buf.getD 0 0
          magic := (buf.getD 1 0, buf.getD 2 0)
          segment := buf.getD 3 0
          offset := le16 (buf.getD 4 0) (buf.getD 5 0) }, l)

/-- `SegmentEntry` from src/ne/entry_table.rs. -/
inductive SegmentEntry where
  | Unused
  | Fixed (e : FixedSegmentEntry)
  | Moveable (e : MoveableSegmentEntry)
deriving Repr, DecidableEq

/-- `EntryTable` from src/ne/entry_table.rs. -/
structure EntryTable where
  entries : List SegmentEntry
deriving Repr, DecidableEq

/-- The `for _ in 0..entries_count` record loop inside
`EntryTable::read_sf`: reads `count` records of the bundle's kind. -/
def EntryTable.read_sf_records (seg_id : Nat) :
    Nat → List Nat → Except IoErr (List SegmentEntry × List Nat)
  | 0, l => .ok ([], l)
  | Nat.succ n, l => do
    let (entry, l) ←
      if seg_id == 0xFF then do
        let (e, l) ← MoveableSegmentEntry.read l
        pure (SegmentEntry.Moveable e, l)
      else do
        let (e, l) ← FixedSegmentEntry.read l seg_id
        pure (SegmentEntry.Fixed e, l)
    let (rest, l) ← EntryTable.read_sf_records seg_id n l
    pure (entry :: rest, l)

/-- The `while bytes_remaining > 0` loop of `EntryTable::read_sf`
(src/ne/entry_table.rs).  The source's `bytes_remaining -= 2` is an
unchecked `u16` subtraction performed right after the two header bytes
are read; when `bytes_remaining < 2` it underflows, which is modeled
as the debug-build abort `IoErr.overflow`. -/
def EntryTable.read_sf_loop (bytes_remaining : Nat) (l : List Nat) :
    Except IoErr (List SegmentEntry × List Nat) :=
  if h0 : bytes_remaining > 0 then
    match takeExact 2 l with
    | .error e => .error e
    | .ok (buffer, l) =>
      if h1 : bytes_remaining < 2 then
        .error .overflow
      else
        let bytes_remaining1 := bytes_remaining - 2
        let entries_count := buffer.getD 0 0
        let seg_id := buffer.getD 1 0
        if entries_count == 0 then
          .ok ([], l)
        else if seg_id == 0 then
          match EntryTable.read_sf_loop bytes_remaining1 l with
          | .error e => .error e
          | .ok (rest, l) =>
            .ok (List.replicate entries_count SegmentEntry.Unused ++ rest, l)
        else
          let entry_size := if seg_id == 0xFF then 6 else 3
          let bundle_size := entries_count * entry_size
          if bundle_size > bytes_remaining1 then
            .error .invalidData
          else
            let bytes_remaining2 := bytes_remaining1 - bundle_size
            match EntryTable.read_sf_records seg_id entries_count l with
            | .error e => .error e
            | .ok (bundle, l) =>
              match EntryTable.read_sf_loop bytes_remaining2 l with
              | .error e => .error e
              | .ok (rest, l) => .ok (bundle ++ rest, l)
  else
    .ok ([], l)
termination_by bytes_remaining
decreasing_by
  · omega
  · omega

/-- `EntryTable::read_sf` from src/ne/entry_table.rs (the `_ordinal`
counter of the source is write-only and dropped). -/
def EntryTable.read_sf (cb_ent_tab : Nat) (l : List Nat) :
    Except IoErr (EntryTable × List Nat) := do
  let (entries, l) ← EntryTable.read_sf_loop cb_ent_tab l
  pure ({ entries := entries }, l)

/-! ### src/ne/resource_table.rs -/

/-- `NeResourceTableHeader` from src/ne/resource_table.rs. -/
structure NeResourceTableHeader where
  alignment_shift_count : Nat
deriving Repr, DecidableEq

/-- `NeResourceTableHeader::read`. -/
def NeResourceTableHeader.read (l : List Nat) :
    Except IoErr (NeResourceTableHeader × List Nat) := do
  let (data, l) ← takeExact 2 l
  pure ({ alignment_shift_count := le16 (data.getD 0 0) (data.getD 1 0) }, l)

/-- `NeResourceTypeHeader` from src/ne/resource_table.rs. -/
structure NeResourceTypeHeader where
  type_id : Nat
  num_resources : Nat
  res : Nat × Nat
deriving Repr, DecidableEq

/-- `NeResourceTypeHeader::read` (8 bytes). -/
def NeResourceTypeHeader.read (l : List Nat) :
    Except IoErr (NeResourceTypeHeader × List Nat) := do
  let (buf, l) ← takeExact 8 l
  pure ({ type_id := getU16 buf 0
          num_resources := getU16 buf 2
          res := (getU16 buf 4, getU16 buf 6) }, l)

/-- `NeResourceHeader` from src/ne/resource_table.rs. -/
structure NeResourceHeader where
  data_offset_shifted : Nat
  data_length : Nat
  flags : Nat
  resource_id : Nat
  res : Nat × Nat
deriving Repr, DecidableEq

/-- `NeResourceHeader::read` (12 bytes). -/
def NeResourceHeader.read (l : List Nat) :
    Except IoErr (NeResourceHeader × List Nat) := do
  let (buf, l) ← takeExact 12 l
  pure ({ data_offset_shifted := getU16 buf 0
          data_length := getU16 buf 2
          flags := getU16 buf 4
          resource_id := getU16 buf 6
          res := (getU16 buf 8, getU16 buf 10) }, l)

/-- `NeResource` from src/ne/resource_table.rs. -/
structure NeResource where
  header : NeResourceHeader
deriving Repr, DecidableEq

/-- `NeResource::read`. -/
def NeResource.read (l : List Nat) : Except IoErr (NeResource × List Nat) := do
  let (header, l) ← NeResourceHeader.read l
  pure ({ header := header }, l)

/-- The `(0..header.num_resources).map(|_| NeResource::read(r))`
collection loop shared by `NeResourceType::read` and `read_opt`. -/
def readResources : Nat → List Nat → Except IoErr (List NeResource × List Nat)
  | 0, l => .ok ([], l)
  | Nat.succ n, l => do
    let (r, l) ← NeResource.read l
    let (rest, l) ← readResources n l
    pure (r :: rest, l)

/-- `NeResourceType` from src/ne/resource_table.rs. -/
structure NeResourceType where
  header : NeResourceTypeHeader
  resources : List NeResource
deriving Repr, DecidableEq

/-- `NeResourceType::read`: header, then `num_resources` resource
headers, with no look at `type_id`. -/
def NeResourceType.read (l : List Nat) :
    Except IoErr (NeResourceType × List Nat) := do
  let (header, l) ← NeResourceTypeHeader.read l
  let (resources, l) ← readResources header.num_resources l
  pure ({ header := header, resources := resources }, l)

/-- `NeResourceType::read_opt`: like `read` but stops (returning
`none`) on the sentinel header whose `type_id` is 0. -/
def NeResourceType.read_opt (l : List Nat) :
    Except IoErr (Option NeResourceType × List Nat) := do
  let (header, l) ← NeResourceTypeHeader.read l
  if header.type_id == 0 then
    pure (none, l)
  else do
    let (resources, l) ← readResources header.num_resources l
    pure (some { header := header, resources := resources }, l)

/-- `NeResourceTable` from src/ne/resource_table.rs. -/
structure NeResourceTable where
  header : NeResourceTableHeader
  resource_types : List NeResourceType
deriving Repr, DecidableEq

/-- The `(0..num_entries)` collection loop of `NeResourceTable::read`. -/
def readResourceTypes : Nat → List Nat → Except IoErr (List NeResourceType × List Nat)
  | 0, l => .ok ([], l)
  | Nat.succ n, l => do
    let (t, l) ← NeResourceType.read l
    let (rest, l) ← readResourceTypes n l
    pure (t :: rest, l)

/-- `NeResourceTable::read` (fixed-count mode). -/
def NeResourceTable.read (l : List Nat) (num_entries : Nat) :
    Except IoErr (NeResourceTable × List Nat) := do
  let (header, l) ← NeResourceTableHeader.read l
  let (resource_types, l) ← readResourceTypes num_entries l
  pure ({ header := header, resource_types := resource_types }, l)

/-- Length accounting for `NeResourceTypeHeader.read` (8 bytes). -/
theorem resourceTypeHeader_read_length {l : List Nat} {hd : NeResourceTypeHeader}
    {rest : List Nat} (h : NeResourceTypeHeader.read l = .ok (hd, rest)) :
    rest.length + 8 = l.length := by
  unfold NeResourceTypeHeader.read at h
  simp only [bind, Except.bind, pure, Except.pure] at h
  cases htake : takeExact 8 l with
  | error e => simp only [htake] at h; cases h
  | ok p =>
    obtain ⟨buf, l1⟩ := p
    simp only [htake] at h
    cases h
    exact (takeExact_ok_length htake).1

/-- `readResources` never grows the unconsumed stream (termination
support for the sentinel loop). -/
theorem readResources_length_le {n : Nat} {l : List Nat} {rs : List NeResource}
    {rest : List Nat} (h : readResources n l = .ok (rs, rest)) :
    rest.length ≤ l.length := by
  induction n generalizing l rs rest with
  | zero =>
    unfold readResources at h
    cases h
    exact Nat.le_refl _
  | succ n ih =>
    unfold readResources at h
    simp only [NeResource.read, NeResourceHeader.read, bind, Except.bind, pure, Except.pure] at h
    cases htake : takeExact 12 l with
    | error e => simp only [htake] at h; cases h
    | ok p =>
      obtain ⟨buf, l1⟩ := p
      simp only [htake] at h
      cases hrec : readResources n l1 with
      | error e => simp only [hrec] at h; cases h
      | ok q =>
        obtain ⟨rs1, l2⟩ := q
        simp only [hrec] at h
        cases h
        have h1 := takeExact_ok_length htake
        have h2 := ih hrec
        omega

/-- `NeResourceType::read_opt` consumes at least its 8 header bytes
(termination support for the sentinel loop). -/
theorem read_opt_length_lt {l : List Nat} {x : Option NeResourceType}
    {rest : List Nat} (h : NeResourceType.read_opt l = .ok (x, rest)) :
    rest.length + 8 ≤ l.length := by
  unfold NeResourceType.read_opt at h
  simp only [bind, Except.bind, pure, Except.pure] at h
  cases hh : NeResourceTypeHeader.read l with
  | error e => simp only [hh] at h; cases h
  | ok p =>
    obtain ⟨hd, l1⟩ := p
    simp only [hh] at h
    have h1 := resourceTypeHeader_read_length hh
    split at h
    · cases h
      omega
    · cases hres : readResources hd.num_resources l1 with
      | error e => simp only [hres] at h; cases h
      | ok q =>
        obtain ⟨rs, l2⟩ := q
        simp only [hres] at h
        cases h
        have h2 := readResources_length_le hres
        omega

/-- The `loop` of `NeResourceTable::read_variadic`: collect resource
types until `read_opt` hits the `type_id == 0` sentinel. -/
def readVariadicTypes (l : List Nat) : Except IoErr (List NeResourceType × List Nat) :=
  match hstep : NeResourceType.read_opt l with
  | .error e => .error e
  | .ok (none, l1) => .ok ([], l1)
  | .ok (some t, l1) =>
    match readVariadicTypes l1 with
    | .error e => .error e
    | .ok (ts, l2) => .ok (t :: ts, l2)
termination_by l.length
decreasing_by
  have := read_opt_length_lt hstep
  omega

/-- `NeResourceTable::read_variadic` (sentinel mode). -/
def NeResourceTable.read_variadic (l : List Nat) :
    Except IoErr (NeResourceTable × List Nat) := do
  let (header, l) ← NeResourceTableHeader.read l
  let (resource_types, l) ← readVariadicTypes l
  pure ({ header := header, resource_types := resource_types }, l)

/-! ### src/ne/resident_name_table.rs and nonresident_name_table.rs
(the two modules are textually identical record readers; both are kept,
as in the source) -/

/-- `ResidentNameEntry` from src/ne/resident_name_table.rs. -/
structure ResidentNameEntry where
  name : List Nat
  index : Nat
deriving Repr, DecidableEq

/-- `ResidentNameEntry::read`: a length byte (0 terminates the table),
the name bytes, then a 2-byte ordinal index. -/
def ResidentNameEntry.read (l : List Nat) :
    Except IoErr (Option ResidentNameEntry × List Nat) := do
  let (lenBuf, l) ← takeExact 1 l
  let len := lenBuf.getD 0 0
  if len == 0 then
    pure (none, l)
  else do
    let (name, l) ← takeExact len l
    let (buf, l) ← takeExact 2 l
    pure (some { name := name, index := le16 (buf.getD 0 0) (buf.getD 1 0) }, l)

/-- `ResidentNameEntry.read` consumes at least its length byte
(termination support). -/
theorem residentNameEntry_read_length {l : List Nat} {x : Option ResidentNameEntry}
    {rest : List Nat} (h : ResidentNameEntry.read l = .ok (x, rest)) :
    rest.length + 1 ≤ l.length := by
  unfold ResidentNameEntry.read at h
  simp only [bind, Except.bind, pure, Except.pure] at h
  cases h1 : takeExact 1 l with
  | error e => simp only [h1] at h; cases h
  | ok p =>
    obtain ⟨lenBuf, l1⟩ := p
    simp only [h1] at h
    have hl1 := takeExact_ok_length h1
    split at h
    · cases h
      omega
    · cases h2 : takeExact (lenBuf.getD 0 0) l1 with
      | error e => simp only [h2] at h; cases h
      | ok q =>
        obtain ⟨name, l2⟩ := q
        simp only [h2] at h
        cases h3 : takeExact 2 l2 with
        | error e => simp only [h3] at h; cases h
        | ok r =>
          obtain ⟨buf, l3⟩ := r
          simp only [h3] at h
          cases h
          have hl2 := takeExact_ok_length h2
          have hl3 := takeExact_ok_length h3
          omega

/-- `ResidentNameTable` from src/ne/resident_name_table.rs. -/
structure ResidentNameTable where
  entries : List ResidentNameEntry
deriving Repr, DecidableEq

/-- The `while let Some(entry)` loop of `ResidentNameTable::read`. -/
def readResidentNameEntries (l : List Nat) :
    Except IoErr (List ResidentNameEntry × List Nat) :=
  match hstep : ResidentNameEntry.read l with
  | .error e => .error e
  | .ok (none, l1) => .ok ([], l1)
  | .ok (some e, l1) =>
    match readResidentNameEntries l1 with
    | .error er => .error er
    | .ok (es, l2) => .ok (e :: es, l2)
termination_by l.length
decreasing_by
  have := residentNameEntry_read_length hstep
  omega

/-- `ResidentNameTable::read`. -/
def ResidentNameTable.read (l : List Nat) :
    Except IoErr (ResidentNameTable × List Nat) := do
  let (entries, l) ← readResidentNameEntries l
  pure ({ entries := entries }, l)

/-- `NonresidentNameEntry` from src/ne/nonresident_name_table.rs. -/
structure NonresidentNameEntry where
  name : List Nat
  index : Nat
deriving Repr, DecidableEq

/-- `NonresidentNameEntry::read` (same record layout as the resident
variant). -/
def NonresidentNameEntry.read (l : List Nat) :
    Except IoErr (Option NonresidentNameEntry × List Nat) := do
  let (lenBuf, l) ← takeExact 1 l
  let len := lenBuf.getD 0 0
  if len == 0 then
    pure (none, l)
  else do
    let (name, l) ← takeExact len l
    let (buf, l) ← takeExact 2 l
    pure (some { name := name, index := le16 (buf.getD 0 0) (buf.getD 1 0) }, l)

/-- `NonresidentNameEntry.read` consumes at least its length byte. -/
theorem nonresidentNameEntry_read_length {l : List Nat}
    {x : Option NonresidentNameEntry} {rest : List Nat}
    (h : NonresidentNameEntry.read l = .ok (x, rest)) :
    rest.length + 1 ≤ l.length := by
  unfold NonresidentNameEntry.read at h
  simp only [bind, Except.bind, pure, Except.pure] at h
  cases h1 : takeExact 1 l with
  | error e => simp only [h1] at h; cases h
  | ok p =>
    obtain ⟨lenBuf, l1⟩ := p
    simp only [h1] at h
    have hl1 := takeExact_ok_length h1
    split at h
    · cases h
      omega
    · cases h2 : takeExact (lenBuf.getD 0 0) l1 with
      | error e => simp only [h2] at h; cases h
      | ok q =>
        obtain ⟨name, l2⟩ := q
        simp only [h2] at h
        cases h3 : takeExact 2 l2 with
        | error e => simp only [h3] at h; cases h
        | ok r =>
          obtain ⟨buf, l3⟩ := r
          simp only [h3] at h
          cases h
          have hl2 := takeExact_ok_length h2
          have hl3 := takeExact_ok_length h3
          omega

/-- `NonresidentNameTable` from src/ne/nonresident_name_table.rs. -/
structure NonresidentNameTable where
  entries : List NonresidentNameEntry
deriving Repr, DecidableEq

/-- The `while let Some(entry)` loop of `NonresidentNameTable::read`. -/
def readNonresidentNameEntries (l : List Nat) :
    Except IoErr (List NonresidentNameEntry × List Nat) :=
  match hstep : NonresidentNameEntry.read l with
  | .error e => .error e
  | .ok (none, l1) => .ok ([], l1)
  | .ok (some e, l1) =>
    match readNonresidentNameEntries l1 with
    | .error er => .error er
    | .ok (es, l2) => .ok (e :: es, l2)
termination_by l.length
decreasing_by
  have := nonresidentNameEntry_read_length hstep
  omega

/-- `NonresidentNameTable::read`. -/
def NonresidentNameTable.read (l : List Nat) :
    Except IoErr (NonresidentNameTable × List Nat) := do
  let (entries, l) ← readNonresidentNameEntries l
  pure ({ entries := entries }, l)

/-! ### src/ne/module_reference_table.rs (sequential part) -/

/-- `ModuleReferenceEntryHeader` from src/ne/module_reference_table.rs. -/
structure ModuleReferenceEntryHeader where
  offset : Nat
deriving Repr, DecidableEq

/-- `ModuleReferenceEntryHeader::read`. -/
def ModuleReferenceEntryHeader.read (l : List Nat) :
    Except IoErr (ModuleReferenceEntryHeader × List Nat) := do
  let (buf, l) ← takeExact 2 l
  pure ({ offset := le16 (buf.getD 0 0) (buf.getD 1 0) }, l)

/-- `ModuleReferenceEntry` from src/ne/module_reference_table.rs. -/
structure ModuleReferenceEntry where
  header : ModuleReferenceEntryHeader
  name : List Nat
deriving Repr, DecidableEq

/-- `ModuleReferenceEntry::read`: phase one, pointer only, empty name. -/
def ModuleReferenceEntry.read (l : List Nat) :
    Except IoErr (ModuleReferenceEntry × List Nat) := do
  let (header, l) ← ModuleReferenceEntryHeader.read l
  pure ({ header := header, name := [] }, l)

/-- `ModuleReferenceTable` from src/ne/module_reference_table.rs. -/
structure ModuleReferenceTable where
  entries : List ModuleReferenceEntry
deriving Repr, DecidableEq

/-- The `(0..num)` collection loop of `ModuleReferenceTable::read`. -/
def readModuleReferenceEntries : Nat → List Nat → Except IoErr (List ModuleReferenceEntry × List Nat)
  | 0, l => .ok ([], l)
  | Nat.succ n, l => do
    let (e, l) ← ModuleReferenceEntry.read l
    let (rest, l) ← readModuleReferenceEntries n l
    pure (e :: rest, l)

/-- `ModuleReferenceTable::read`. -/
def ModuleReferenceTable.read (num : Nat) (l : List Nat) :
    Except IoErr (ModuleReferenceTable × List Nat) := do
  let (entries, l) ← readModuleReferenceEntries num l
  pure ({ entries := entries }, l)

/-! ### src/ne/segment_relocations.rs -/

/-- `InternalFixes` from src/ne/segment_relocations.rs. -/
structure InternalFixes where
  segment : Nat
  is_movable : Bool
  offset_or_ordinal : Nat
deriving Repr, DecidableEq

/-- `ImportByOrdinal` from src/ne/segment_relocations.rs. -/
structure ImportByOrdinal where
  module_index : Nat
  ordinal : Nat
deriving Repr, DecidableEq

/-- `ImportByName` from src/ne/segment_relocations.rs. -/
structure ImportByName where
  module_index : Nat
  name_offset : Nat
deriving Repr, DecidableEq

/-- `RelocationTarget` from src/ne/segment_relocations.rs. -/
inductive RelocationTarget where
  | Internal (f : InternalFixes)
  | ImportByOrdinal (o : ImportByOrdinal)
  | ImportByName (n : ImportByName)
deriving Repr, DecidableEq

/-- `RelocationEntry` from src/ne/segment_relocations.rs. -/
structure RelocationEntry where
  address_type : Nat
  reloc_type : Nat
  is_additive : Bool
  segment_offset : Nat
  target : RelocationTarget
deriving Repr, DecidableEq

/-- The body of the `for _ in 0..count` loop of
`RelocationTable::read`, applied to one 8-byte `entry_buf`: field
extraction and the `match reloc_type` dispatch on the low 2 bits of
the flags byte. -/
def readRelocationEntry (entry_buf : List Nat) : Except IoErr RelocationEntry :=
  let address_type := entry_buf.getD 0 0
  let reloc_flags := entry_buf.getD 1 0
  let reloc_type := reloc_flags &&& 0x03
  let is_additive := (reloc_flags &&& 0x04) != 0
  let segment_offset := le16 (entry_buf.getD 2 0) (entry_buf.getD 3 0)
  let target : Except IoErr RelocationTarget :=
    if reloc_type == 0x00 then
      .ok (RelocationTarget.Internal
        { segment := entry_buf.getD 4 0
          is_movable := entry_buf.getD 4 0 == 0xFF
          offset_or_ordinal := le16 (entry_buf.getD 6 0) (entry_buf.getD 7 0) })
    else if reloc_type == 0x01 then
      .ok (RelocationTarget.ImportByOrdinal
        { module_index := le16 (entry_buf.getD 4 0) (entry_buf.getD 5 0)
          ordinal := le16 (entry_buf.getD 6 0) (entry_buf.getD 7 0) })
    else if reloc_type == 0x02 then
      .ok (RelocationTarget.ImportByName
        { module_index := le16 (entry_buf.getD 4 0) (entry_buf.getD 5 0)
          name_offset := le16 (entry_buf.getD 6 0) (entry_buf.getD 7 0) })
    else
      .error IoErr.invalidData
  match target with
  | .error e => .error e
  | .ok target =>
    .ok { address_type := address_type
          reloc_type := reloc_type
          is_additive := is_additive
          segment_offset := segment_offset
          target := target }

/-- `RelocationTable` from src/ne/segment_relocations.rs. -/
structure RelocationTable where
  entries : List RelocationEntry
deriving Repr, DecidableEq

/-- The `for _ in 0..count` loop of `RelocationTable::read`. -/
def readRelocationEntries : Nat → List Nat → Except IoErr (List RelocationEntry × List Nat)
  | 0, l => .ok ([], l)
  | Nat.succ n, l => do
    let (entry_buf, l) ← takeExact 8 l
    let entry ← readRelocationEntry entry_buf
    let (rest, l) ← readRelocationEntries n l
    pure (entry :: rest, l)

/-- `RelocationTable::read`: 2-byte little-endian count, then `count`
8-byte relocation records. -/
def RelocationTable.read (l : List Nat) :
    Except IoErr (RelocationTable × List Nat) := do
  let (count_buf, l) ← takeExact 2 l
  let count := le16 (count_buf.getD 0 0) (count_buf.getD 1 0)
  let (entries, l) ← readRelocationEntries count l
  pure ({ entries := entries }, l)

/-! ### src/ne/segment_table.rs -/

/-- `NeSegmentHeader` from src/ne/segment_table.rs. -/
structure NeSegmentHeader where
  data_offset_shifted : Nat
  data_length : Nat
  flags : Nat
  min_alloc : Nat
deriving Repr, DecidableEq

/-- `NeSegmentHeader::read` (8 bytes). -/
def NeSegmentHeader.read (l : List Nat) :
    Except IoErr (NeSegmentHeader × List Nat) := do
  let (buf, l) ← takeExact 8 l
  pure ({ data_offset_shifted := getU16 buf 0
          data_length := getU16 buf 2
          flags := getU16 buf 4
          min_alloc := getU16 buf 6 }, l)

/-- `NeSegment` from src/ne/segment_table.rs. -/
structure NeSegment where
  header : NeSegmentHeader
  shift_count : Nat
  data : Option (List Nat)
deriving Repr, DecidableEq

/-- `NeSegment::read`. -/
def NeSegment.read (l : List Nat) (shift_count : Nat) :
    Except IoErr (NeSegment × List Nat) := do
  let (header, l) ← NeSegmentHeader.read l
  pure ({ header := header, shift_count := shift_count, data := none }, l)

/-- `NeSegment::data_offset`: the stored offset shifted left by the
file alignment shift count (`u64` in the source; a real NE file keeps
the shift count far below 64, where the `Nat` and `u64` values agree). -/
def NeSegment.data_offset (s : NeSegment) : Nat :=
  s.header.data_offset_shifted <<< s.shift_count

/-- `NeSegment::data_length`: a stored 0 means 0x10000. -/
def NeSegment.data_length (s : NeSegment) : Nat :=
  if s.header.data_length == 0 then 0x10000 else s.header.data_length

/-- `NeSegment::min_alloc`: a stored 0 means 0x10000. -/
def NeSegment.min_alloc (s : NeSegment) : Nat :=
  if s.header.min_alloc == 0 then 0x10000 else s.header.min_alloc

/-- The `(0..segment_count)` collection loop of `NeExecutable::read`
over `NeSegment::read`. -/
def readSegmentEntries (shift_count : Nat) :
    Nat → List Nat → Except IoErr (List NeSegment × List Nat)
  | 0, l => .ok ([], l)
  | Nat.succ n, l => do
    let (s, l) ← NeSegment.read l shift_count
    let (rest, l) ← readSegmentEntries shift_count n l
    pure (s :: rest, l)

/-! ### src/mz.rs and src/ne/header.rs -/

/-- `DosHeader` from src/mz.rs (the little-endian wrapper types of
src/util/endian.rs are value-transparent: `.value()` is the identity
on the numeric value, so fields are plain numbers here). -/
structure DosHeader where
  magic : Nat
  cblp : Nat
  cp : Nat
  crlc : Nat
  cparhdr : Nat
  minalloc : Nat
  maxalloc : Nat
  ss : Nat
  sp : Nat
  csum : Nat
  ip : Nat
  cs : Nat
  lfarlc : Nat
  ovno : Nat
  res : List Nat
  oemid : Nat
  oeminfo : Nat
  res2 : List Nat
  lfanew : Nat
deriving Repr, DecidableEq

/-- `DosHeader::read` (64 bytes). -/
def DosHeader.read (l : List Nat) : Except IoErr (DosHeader × List Nat) := do
  let (buf, l) ← takeExact 0x40 l
  pure ({ magic := getU16 buf 0
          cblp := getU16 buf 2
          cp := getU16 buf 4
          crlc := getU16 buf 6
          cparhdr := getU16 buf 8
          minalloc := getU16 buf 0xA
          maxalloc := getU16 buf 0xC
          ss := getU16 buf 0xE
          sp := getU16 buf 0x10
          csum := getU16 buf 0x12
          ip := getU16 buf 0x14
          cs := getU16 buf 0x16
          lfarlc := getU16 buf 0x18
          ovno := getU16 buf 0x1A
          res := [getU16 buf 0x1C, getU16 buf 0x1E, getU16 buf 0x20, getU16 buf 0x22]
          oemid := getU16 buf 0x24
          oeminfo := getU16 buf 0x26
          res2 := [getU16 buf 0x28, getU16 buf 0x2A, getU16 buf 0x2C, getU16 buf 0x2E,
            getU16 buf 0x30, getU16 buf 0x32, getU16 buf 0x34, getU16 buf 0x36,
            getU16 buf 0x38, getU16 buf 0x3A]
          lfanew := getU32 buf 0x3C }, l)

/-- `DosHeader::check_magic`: `BadMagic` unless the first word is
`b"MZ"` (0x5A4D little-endian). -/
def DosHeader.check_magic (d : DosHeader) : Except IoErr Unit :=
  if d.magic != 0x5A4D then .error .invalidInput else .ok ()

/-- `NeHeader` from src/ne/header.rs (`magic` and `expected_win_ver`
kept as their two bytes). -/
structure NeHeader where
  magic : Nat × Nat
  major_linker_version : Nat
  minor_linker_version : Nat
  entry_table_offset : Nat
  entry_table_length : Nat
  file_load_crc : Nat
  flags : Nat
  auto_data_segment_index : Nat
  init_heap_size : Nat
  init_stack_size : Nat
  entry_point : Nat
  init_stack : Nat
  segment_count : Nat
  module_references : Nat
  non_resident_names_size : Nat
  segment_table_offset : Nat
  resource_table_offset : Nat
  resident_names_table_offset : Nat
  module_reference_table_offset : Nat
  import_name_table_offset : Nat
  non_resident_names_table_offset : Nat
  movable_entry_point_count : Nat
  file_alignment_shift_count : Nat
  resource_table_entries : Nat
  target_os : Nat
  os2_exe_flags : Nat
  return_thunk_offset : Nat
  segment_reference_thunk_offset : Nat
  min_code_swap : Nat
  expected_win_ver : Nat × Nat
deriving Repr, DecidableEq

/-- `NeHeader::read` (64 bytes). -/
def NeHeader.read (l : List Nat) : Except IoErr (NeHeader × List Nat) := do
  let (buf, l) ← takeExact 0x40 l
  pure ({ magic := (buf.getD 0 0, buf.getD 1 0)
          major_linker_version := buf.getD 2 0
          minor_linker_version := buf.getD 3 0
          entry_table_offset := getU16 buf 4
          entry_table_length := getU16 buf 6
          file_load_crc := getU32 buf 8
          flags := getU16 buf 0xC
          auto_data_segment_index := getU16 buf 0xE
          init_heap_size := getU16 buf 0x10
          init_stack_size := getU16 buf 0x12
          entry_point := getU32 buf 0x14
          init_stack := getU32 buf 0x18
          segment_count := getU16 buf 0x1C
          module_references := getU16 buf 0x1E
          non_resident_names_size := getU16 buf 0x20
          segment_table_offset := getU16 buf 0x22
          resource_table_offset := getU16 buf 0x24
          resident_names_table_offset := getU16 buf 0x26
          module_reference_table_offset := getU16 buf 0x28
          import_name_table_offset := getU16 buf 0x2A
          non_resident_names_table_offset := getU32 buf 0x2C
          movable_entry_point_count := getU16 buf 0x30
          file_alignment_shift_count := getU16 buf 0x32
          resource_table_entries := getU16 buf 0x34
          target_os := buf.getD 0x36 0
          os2_exe_flags := buf.getD 0x37 0
          return_thunk_offset := getU16 buf 0x38
          segment_reference_thunk_offset := getU16 buf 0x3A
          min_code_swap := getU16 buf 0x3C
          expected_win_ver := (buf.getD 0x3E 0, buf.getD 0x3F 0) }, l)

/-- `NeHeader::check_magic`: `BadMagic` unless the two magic bytes are
`b"NE"` (0x4E, 0x45). -/
def NeHeader.check_magic (h : NeHeader) : Except IoErr Unit :=
  if h.magic != (0x4E, 0x45) then .error .invalidInput else .ok ()

/-! ### The seekable byte source and `NeExecutable::read` (src/ne/mod.rs)

`RState` models the `Read + Seek` file: the byte list, the cursor, and
a ghost trace (`seeks`) recording every absolute `SeekFrom::Start`
target in order, used to state claim C7. -/

/-- The state of the seekable byte source. -/
structure RState where
  file : List Nat
  pos : Nat
  seeks : List Nat
deriving Repr, DecidableEq

/-- The reader monad of `NeExecutable::read`: state plus `io::Error`. -/
def ReadM (α : Type) : Type := RState → Except IoErr (α × RState)

instance : Monad ReadM where
  pure a := fun s => .ok (a, s)
  bind m f := fun s =>
    match m s with
    | .error e => .error e
    | .ok (a, s1) => f a s1

/-- `file.seek(SeekFrom::Start(t))`: move the cursor and record the
target in the ghost trace. -/
def seekStart (t : Nat) : ReadM Unit :=
  fun s => .ok ((), { s with pos := t, seeks := s.seeks ++ [t] })

/-- `read_exact` of `n` bytes at the cursor. -/
def readBytes (n : Nat) : ReadM (List Nat) :=
  fun s =>
    if s.pos + n ≤ s.file.length then
      .ok ((s.file.drop s.pos).take n, { s with pos := s.pos + n })
    else
      .error .unexpectedEof

/-- Run a sequential (`R: Read`-only) decoder at the cursor: such a
decoder only pulls bytes forward, so it sees the suffix at the cursor
and the cursor advances by what it consumed. -/
def runAt {α : Type} (f : List Nat → Except IoErr (α × List Nat)) : ReadM α :=
  fun s =>
    match f (s.file.drop s.pos) with
    | .ok (a, rest) => .ok (a, { s with pos := s.pos + ((s.file.drop s.pos).length - rest.length) })
    | .error e => .error e

/-- Lift a pure `Except` computation (e.g. `check_magic`). -/
def liftE {α : Type} (e : Except IoErr α) : ReadM α :=
  fun s =>
    match e with
    | .ok a => .ok (a, s)
    | .error er => .error er

/-- `ModuleReferenceEntry::read_name` from
src/ne/module_reference_table.rs: seek to (import-name-table base +
stored offset), read a length byte, then that many name bytes. -/
def ModuleReferenceEntry.read_name (e : ModuleReferenceEntry) (offset : Nat) :
    ReadM ModuleReferenceEntry := do
  seekStart (offset + e.header.offset)
  let lenBuf ← readBytes 1
  let name ← readBytes (lenBuf.getD 0 0)
  pure { e with name := name }

/-- The `for entry in &mut self.entries` loop of
`ModuleReferenceTable::read_names`. -/
def read_names_list (offset : Nat) :
    List ModuleReferenceEntry → ReadM (List ModuleReferenceEntry)
  | [] => pure []
  | e :: es => do
    let e1 ← ModuleReferenceEntry.read_name e offset
    let es1 ← read_names_list offset es
    pure (e1 :: es1)

/-- `ModuleReferenceTable::read_names`. -/
def ModuleReferenceTable.read_names (t : ModuleReferenceTable) (offset : Nat) :
    ReadM ModuleReferenceTable := do
  let entries ← read_names_list offset t.entries
  pure { entries := entries }

/-- `NeSegment::read_data` from src/ne/segment_table.rs: nothing for a
zero stored offset, otherwise seek to the shifted offset and read
`data_length()` bytes. -/
def NeSegment.read_data (seg : NeSegment) : ReadM NeSegment :=
  if seg.header.data_offset_shifted == 0 then
    pure seg
  else do
    seekStart seg.data_offset
    let data ← readBytes seg.data_length
    pure { seg with data := some data }

/-- The final `for segment in &mut segment_entries` loop of
`NeExecutable::read`: load each segment's data and, when flag bit 3
(0x0008) is set, read that segment's relocation table. -/
def readSegmentsData : List NeSegment → ReadM (List NeSegment × List RelocationTable)
  | [] => pure ([], [])
  | seg :: rest => do
    let seg1 ← NeSegment.read_data seg
    let relocs ←
      if seg1.header.flags &&& 0x0008 != 0 then do
        let r ← runAt RelocationTable.read
        pure [r]
      else
        pure ([] : List RelocationTable)
    let (rest1, relocRest) ← readSegmentsData rest
    pure (seg1 :: rest1, relocs ++ relocRest)

/-- The resource-table dispatch inside `NeExecutable::read`
(src/ne/mod.rs lines 70-74): sentinel mode iff the header's
resource-entry count is 0xFFFF. -/
def resourceTableStep (resource_table_entries : Nat) (l : List Nat) :
    Except IoErr (NeResourceTable × List Nat) :=
  if resource_table_entries == 0xFFFF then
    NeResourceTable.read_variadic l
  else
    NeResourceTable.read l resource_table_entries

/-- `NeExecutable` from src/ne/mod.rs (`Box` is transparent here). -/
structure NeExecutable where
  dos_header : DosHeader
  ne_header : NeHeader
  segment_entries : List NeSegment
  resource_table : NeResourceTable
  resident_name_table : ResidentNameTable
  module_reference_table : ModuleReferenceTable
  entry_table : EntryTable
  nonresident_name_table : NonresidentNameTable
  relocation_tables_per_segment : List RelocationTable
deriving Repr, DecidableEq

/-- `NeExecutable::read` from src/ne/mod.rs: the full structural
decode, with every `SeekFrom::Start` target recorded in the ghost
trace.  The `debug!` logging of the source is pure output and elided. -/
def NeExecutable.read : ReadM NeExecutable := do
  let dos_header ← runAt DosHeader.read
  liftE dos_header.check_magic
  let lfanew := dos_header.lfanew
  seekStart lfanew
  let ne_header ← runAt NeHeader.read
  liftE ne_header.check_magic
  seekStart (lfanew + ne_header.segment_table_offset)
  let segment_entries ← runAt
    (readSegmentEntries ne_header.file_alignment_shift_count ne_header.segment_count)
  let rt_offset := lfanew + ne_header.resource_table_offset
  seekStart rt_offset
  let resource_table ← runAt (resourceTableStep ne_header.resource_table_entries)
  let rnt_offset := lfanew + ne_header.resident_names_table_offset
  seekStart rnt_offset
  let resident_name_table ← runAt ResidentNameTable.read
  let mrt_offset := lfanew + ne_header.module_reference_table_offset
  seekStart mrt_offset
  let module_reference_table ← runAt (ModuleReferenceTable.read ne_header.module_references)
  let int_offset := lfanew + ne_header.import_name_table_offset
  let module_reference_table ← module_reference_table.read_names int_offset
  let et_offset := lfanew + ne_header.entry_table_offset
  seekStart et_offset
  let entry_table ← runAt (EntryTable.read_sf ne_header.entry_table_length)
  let nnt_offset := ne_header.non_resident_names_table_offset
  seekStart nnt_offset
  let nonresident_name_table ← runAt NonresidentNameTable.read
  let (segment_entries, relocs_per_segment) ← readSegmentsData segment_entries
  pure { dos_header := dos_header
         ne_header := ne_header
         segment_entries := segment_entries
         resource_table := resource_table
         resident_name_table := resident_name_table
         module_reference_table := module_reference_table
         entry_table := entry_table
         nonresident_name_table := nonresident_name_table
         relocation_tables_per_segment := relocs_per_segment }

/-! ### `iter_segment_bytes` (src/ne/mod.rs) -/

/-- `<[T]>::repeat`: the list repeated `n` times. -/
def listRepeat (l : List Nat) (n : Nat) : List Nat :=
  (List.replicate n l).flatten

/-- `iter_segment_bytes` from src/ne/mod.rs: 2-byte little-endian
iteration count, 2-byte little-endian raw-run length, then the raw
run; output is the raw run repeated.  The source's slice indexing
panics when the payload is shorter than `4 + data_size`; that abort is
modeled as `none`. -/
def iter_segment_bytes (data : List Nat) : Option (List Nat) :=
  if 4 ≤ data.length then
    let iterations := le16 (data.getD 0 0) (data.getD 1 0)
    let data_size := le16 (data.getD 2 0) (data.getD 3 0)
    if 4 + data_size ≤ data.length then
      let raw_data := (data.drop 4).take data_size
      some (listRepeat raw_data iterations)
    else
      none
  else
    none

/-! ## Theorems

Shared stepping lemmas for the instruction decoder, then the claim
theorems C1-C10 with their witnesses and counterexamples. -/

deriving instance DecidableEq for Except

theorem SimpleEater.next_if_spec {e : SimpleEater} {f : Nat → Bool} {r : Option Nat}
    {e2 : SimpleEater} (h : e.next_if f = (r, e2)) :
    e2.code = e.code ∧ e2.pos = e.pos + r.isSome.toNat ∧
      (e.pos ≤ e.code.length → e2.pos ≤ e.code.length) := by
  unfold SimpleEater.next_if at h
  split at h
  · rename_i hc
    cases h
    simp only [Bool.and_eq_true, decide_eq_true_eq] at hc
    refine ⟨rfl, by simp, ?_⟩
    intro _
    simp
    omega
  · cases h
    simp

theorem SimpleEater.next_spec {e : SimpleEater} {b : Nat} {e2 : SimpleEater}
    (h : e.next = .ok (b, e2)) :
    e2.code = e.code ∧ e2.pos = e.pos + 1 ∧ e2.pos ≤ e.code.length := by
  unfold SimpleEater.next at h
  split at h
  · rename_i hc
    cases h
    exact ⟨rfl, rfl, by simp; omega⟩
  · cases h

theorem eatOptByte_spec {c : Bool} {e : SimpleEater} {o : Option Nat} {e2 : SimpleEater}
    (h : eatOptByte c e = .ok (o, e2)) :
    e2.code = e.code ∧ e2.pos = e.pos + o.isSome.toNat ∧ o.isSome = c ∧
      (e.pos ≤ e.code.length → e2.pos ≤ e.code.length) := by
  unfold eatOptByte at h
  split at h
  · simp only [bind, Except.bind, pure, Except.pure] at h
    cases hn : e.next with
    | error er => simp only [hn] at h; cases h
    | ok p =>
      obtain ⟨b, e1⟩ := p
      simp only [hn] at h
      cases h
      obtain ⟨h1, h2, h3⟩ := SimpleEater.next_spec hn
      exact ⟨h1, by simp [h2], by simp_all, fun _ => by omega⟩
  · simp only [pure, Except.pure] at h
    cases h
    simp_all

theorem eatImmOfSize_spec {sz : ImmediateSize} {e : SimpleEater} {v : Immediate}
    {e2 : SimpleEater} (h : eatImmOfSize sz e = .ok (v, e2)) :
    e2.code = e.code ∧ e2.pos = e.pos + v.len ∧
      (e.pos ≤ e.code.length → e2.pos ≤ e.code.length) := by
  cases sz with
  | None =>
    simp only [eatImmOfSize, pure, Except.pure] at h
    cases h
    simp [Immediate.len]
  | Byte =>
    simp only [eatImmOfSize, bind, Except.bind, pure, Except.pure] at h
    cases hn : e.next with
    | error er => simp only [hn] at h; cases h
    | ok p =>
      obtain ⟨b, e1⟩ := p
      simp only [hn] at h
      cases h
      obtain ⟨h1, h2, h3⟩ := SimpleEater.next_spec hn
      exact ⟨h1, by simp [Immediate.len]; omega, fun _ => by omega⟩
  | Word =>
    simp only [eatImmOfSize, bind, Except.bind, pure, Except.pure] at h
    cases hn : e.next with
    | error er => simp only [hn] at h; cases h
    | ok p =>
      obtain ⟨b0, e1⟩ := p
      simp only [hn] at h
      cases hn1 : e1.next with
      | error er => simp only [hn1] at h; cases h
      | ok q =>
        obtain ⟨b1, e3⟩ := q
        simp only [hn1] at h
        cases h
        obtain ⟨g1, g2, g3⟩ := SimpleEater.next_spec hn
        obtain ⟨k1, k2, k3⟩ := SimpleEater.next_spec hn1
        rw [g1] at k3
        refine ⟨by rw [k1, g1], by simp [Immediate.len]; omega, fun _ => k3⟩
  | DWord =>
    simp only [eatImmOfSize, bind, Except.bind, pure, Except.pure] at h
    cases hn : e.next with
    | error er => simp only [hn] at h; cases h
    | ok p =>
      obtain ⟨b0, e1⟩ := p
      simp only [hn] at h
      cases hn1 : e1.next with
      | error er => simp only [hn1] at h; cases h
      | ok q =>
        obtain ⟨b1, e3⟩ := q
        simp only [hn1] at h
        cases hn2 : e3.next with
        | error er => simp only [hn2] at h; cases h
        | ok q2 =>
          obtain ⟨b2, e4⟩ := q2
          simp only [hn2] at h
          cases hn3 : e4.next with
          | error er => simp only [hn3] at h; cases h
          | ok q3 =>
            obtain ⟨b3, e5⟩ := q3
            simp only [hn3] at h
            cases h
            obtain ⟨g1, g2, g3⟩ := SimpleEater.next_spec hn
            obtain ⟨k1, k2, k3⟩ := SimpleEater.next_spec hn1
            obtain ⟨m1, m2, m3⟩ := SimpleEater.next_spec hn2
            obtain ⟨n1, n2, n3⟩ := SimpleEater.next_spec hn3
            rw [m1, k1, g1] at n3
            refine ⟨by rw [n1, m1, k1, g1], by simp [Immediate.len]; omega, fun _ => n3⟩

/-- Projection form of `SimpleEater.next_if_spec`. -/
theorem next_if_proj_spec (e : SimpleEater) (f : Nat → Bool) :
    (e.next_if f).2.code = e.code ∧
      (e.next_if f).2.pos = e.pos + (e.next_if f).1.isSome.toNat ∧
      (e.pos ≤ e.code.length → (e.next_if f).2.pos ≤ e.code.length) :=
  SimpleEater.next_if_spec Prod.mk.eta.symm

set_option maxHeartbeats 2000000 in
theorem eat_ok_spec {code : List Nat} {is_32c : Bool} {inst : Inst} {efin : SimpleEater}
    (h : eat code is_32c = .ok (inst, efin)) :
    efin.code = code ∧ efin.pos = inst.len ∧ inst.len ≤ code.length ∧
      inst.is_invalid = false ∧
      inst.sib.isSome = (match inst.modrm with
        | some m => (is_32c ^^ inst.addr_pfx.isSome) && ((m &&& 56) == 32) && ((m &&& 192) != 192)
        | none => false) := by
  unfold eat at h
  dsimp only [bind, Except.bind, pure, Except.pure] at h
  obtain ⟨c1, q1, b1⟩ := next_if_proj_spec (SimpleEater.new code)
    (fun b => b == 0xF0 || b == 0xF2 || b == 0xF3)
  obtain ⟨c2, q2, b2⟩ := next_if_proj_spec
    ((SimpleEater.new code).next_if (fun b => b == 0xF0 || b == 0xF2 || b == 0xF3)).2
    (fun b => b == 0x67)
  obtain ⟨c3, q3, b3⟩ := next_if_proj_spec
    (((SimpleEater.new code).next_if (fun b => b == 0xF0 || b == 0xF2 || b == 0xF3)).2.next_if
      (fun b => b == 0x67)).2
    (fun b => b == 0x66)
  obtain ⟨c4, q4, b4⟩ := next_if_proj_spec
    ((((SimpleEater.new code).next_if (fun b => b == 0xF0 || b == 0xF2 || b == 0xF3)).2.next_if
      (fun b => b == 0x67)).2.next_if (fun b => b == 0x66)).2
    (fun b => [0x26, 0x2E, 0x36, 0x3E, 0x64, 0x65].any (fun x => b == x))
  split at h
  · cases h
  rename_i v1 heq1
  obtain ⟨d1, r1, a1⟩ := SimpleEater.next_spec heq1
  split at h
  · cases h
  split at h
  · cases h
  rename_i v2 heq2
  obtain ⟨d2, r2, s2, a2⟩ := eatOptByte_spec heq2
  split at h
  · cases h
  split at h
  · cases h
  rename_i v3 heq3
  obtain ⟨d3, r3, s3, a3⟩ := eatOptByte_spec heq3
  split at h
  · cases h
  rename_i v4 heq4
  obtain ⟨d4, r4, s4, a4⟩ := eatOptByte_spec heq4
  split at h
  · cases h
  rename_i v5 heq5
  obtain ⟨d5, r5, a5⟩ := eatImmOfSize_spec heq5
  split at h
  · cases h
  rename_i v6 heq6
  obtain ⟨d6, r6, a6⟩ := eatImmOfSize_spec heq6
  injection h with h1
  injection h1 with hinst hefin
  subst hinst
  subst hefin
  have hc0 : (SimpleEater.new code).code = code := rfl
  have hp0 : (SimpleEater.new code).pos = 0 := rfl
  rw [hc0] at c1 b1
  rw [c1] at c2 b2
  rw [c2] at c3 b3
  rw [c3] at c4 b4
  rw [c4] at d1 a1
  rw [d1] at d2 a2
  rw [d2] at d3 a3
  rw [d3] at d4 a4
  rw [d4] at d5 a5
  rw [d5] at d6 a6
  have i0 : (SimpleEater.new code).pos ≤ code.length := Nat.zero_le _
  have i1 := b1 i0
  have i2 := b2 i1
  have i3 := b3 i2
  have i4 := b4 i3
  have i6 := a2 a1
  have i7 := a3 i6
  have i8 := a4 i7
  have i9 := a5 i8
  have i10 := a6 i9
  refine ⟨d6, ?_, ?_, rfl, ?_⟩
  · simp only [Inst.len]
    omega
  · simp only [Inst.len]
    omega
  · dsimp only
    exact s4

/-- Every instruction is at least one byte long (the opcode byte),
including the `gen_invalid` placeholder: the forward-progress core of
claim C3. -/
theorem Inst.one_le_len (i : Inst) : 1 ≤ i.len := by
  unfold Inst.len
  omega

/-- The disassembly loop never yields more instructions than there are
bytes left: each iteration advances by at least one byte. -/
theorem disassembleLoop_length (fuel : Nat) : ∀ (code : List Nat) (is_32 : Bool) (pos : Nat),
    code.length - pos ≤ fuel →
    (disassembleLoop code is_32 pos).length ≤ code.length - pos := by
  induction fuel with
  | zero =>
    intro code is_32 pos hf
    unfold disassembleLoop
    split
    · omega
    · simp
  | succ n ih =>
    intro code is_32 pos hf
    unfold disassembleLoop
    split
    · rename_i hlt
      have h1 := Inst.one_le_len { disStep code pos is_32 with pos := pos }
      have h2 := ih code is_32 (pos + Inst.len { disStep code pos is_32 with pos := pos })
        (by omega)
      simp only [List.length_cons]
      dsimp only at h1 h2 ⊢
      omega
    · simp

/-- C10: the instruction decoder `eat` is total and in-bounds: on any
byte slice and default-width flag a successful decode consumes exactly
`Inst::len` bytes (the final cursor equals the instruction's computed
length, summing its present prefix, opcode, ModRM, SIB, displacement
and immediate bytes), and never more bytes than the slice holds; the
embedding's cursor reads are bounds-checked exactly where the source
indexes after its `pos < len` guards, so no access outside the slice
occurs. -/
theorem c10_eat_total_in_bounds (code : List Nat) (is_32c : Bool) (inst : Inst)
    (efin : SimpleEater) (h : eat code is_32c = .ok (inst, efin)) :
    efin.pos = inst.len ∧ inst.len ≤ code.length :=
  ⟨(eat_ok_spec h).2.1, (eat_ok_spec h).2.2.1⟩

/-- The decode of `inc ax` (0x40) on a one-byte slice. -/
def cInst40 : Inst :=
  { pos := 0, is_invalid := false, is_32c := false, inst_pfx := none, addr_pfx := none,
    size_pfx := none, segm_pfx := none, opcode := 0x40, opcode2 := none, modrm := none,
    sib := none, displacement := Immediate.None, immediate := Immediate.None }

/-- Witness for C10 at the one-byte slice `[0x40]`. -/
theorem c10_eat_total_in_bounds_witness :
    ({ code := [0x40], pos := 1 } : SimpleEater).pos = cInst40.len ∧
      cInst40.len ≤ ([0x40] : List Nat).length :=
  c10_eat_total_in_bounds [0x40] false cInst40 { code := [0x40], pos := 1 } (by decide)

/-- C3: on a non-empty remainder, one decode step always produces an
instruction of length at least 1; when `eat` fails, the step is the
`gen_invalid` placeholder that captures the opcode byte with every
other field absent and has length exactly 1; consequently the
`disassemble` loop advances by at least one byte per iteration and
terminates (it is a total function here, and produces at most one
instruction per input byte). -/
theorem c3_decoder_progress (code : List Nat) (is_32 : Bool) (pos : Nat)
    (hpos : pos < code.length) :
    1 ≤ (disStep code pos is_32).len ∧
    (∀ e, eat (code.drop pos) is_32 = .error e →
      disStep code pos is_32 = gen_invalid (code.getD pos 0)) ∧
    ((gen_invalid (code.getD pos 0)).len = 1 ∧
      (gen_invalid (code.getD pos 0)).is_invalid = true ∧
      (gen_invalid (code.getD pos 0)).opcode = code.getD pos 0 ∧
      (gen_invalid (code.getD pos 0)).inst_pfx = none ∧
      (gen_invalid (code.getD pos 0)).addr_pfx = none ∧
      (gen_invalid (code.getD pos 0)).size_pfx = none ∧
      (gen_invalid (code.getD pos 0)).segm_pfx = none ∧
      (gen_invalid (code.getD pos 0)).opcode2 = none ∧
      (gen_invalid (code.getD pos 0)).modrm = none ∧
      (gen_invalid (code.getD pos 0)).sib = none ∧
      (gen_invalid (code.getD pos 0)).displacement = Immediate.None ∧
      (gen_invalid (code.getD pos 0)).immediate = Immediate.None) ∧
    (disassemble code is_32).length ≤ code.length := by
  refine ⟨Inst.one_le_len _, ?_, ?_, ?_⟩
  · intro e he
    unfold disStep
    rw [he]
  · exact ⟨rfl, rfl, rfl, rfl, rfl, rfl, rfl, rfl, rfl, rfl, rfl, rfl⟩
  · have h := disassembleLoop_length code.length code is_32 0 (by omega)
    unfold disassemble
    omega

/-- Witness for C3 at the one-byte slice `[0x00]` (where `eat` fails
for lack of a ModRM byte and the placeholder is produced). -/
theorem c3_decoder_progress_witness :
    1 ≤ (disStep [0x00] 0 false).len ∧
    (∀ e, eat (([0x00] : List Nat).drop 0) false = .error e →
      disStep [0x00] 0 false = gen_invalid (([0x00] : List Nat).getD 0 0)) ∧
    ((gen_invalid (([0x00] : List Nat).getD 0 0)).len = 1 ∧
      (gen_invalid (([0x00] : List Nat).getD 0 0)).is_invalid = true ∧
      (gen_invalid (([0x00] : List Nat).getD 0 0)).opcode = ([0x00] : List Nat).getD 0 0 ∧
      (gen_invalid (([0x00] : List Nat).getD 0 0)).inst_pfx = none ∧
      (gen_invalid (([0x00] : List Nat).getD 0 0)).addr_pfx = none ∧
      (gen_invalid (([0x00] : List Nat).getD 0 0)).size_pfx = none ∧
      (gen_invalid (([0x00] : List Nat).getD 0 0)).segm_pfx = none ∧
      (gen_invalid (([0x00] : List Nat).getD 0 0)).opcode2 = none ∧
      (gen_invalid (([0x00] : List Nat).getD 0 0)).modrm = none ∧
      (gen_invalid (([0x00] : List Nat).getD 0 0)).sib = none ∧
      (gen_invalid (([0x00] : List Nat).getD 0 0)).displacement = Immediate.None ∧
      (gen_invalid (([0x00] : List Nat).getD 0 0)).immediate = Immediate.None) ∧
    (disassemble [0x00] false).length ≤ ([0x00] : List Nat).length :=
  c3_decoder_progress [0x00] false 0 (by decide)

/-- C2 counterexample: the decoder's SIB test reads the middle (reg)
field of the ModRM byte, not the register/memory (r/m) field.  With
32-bit default width and no prefixes: on `[0x00, 0x20, 0x99]` the
ModRM byte 0x20 has r/m = 0 (not the SIB escape) yet a SIB byte is
consumed; on `[0x00, 0x04, 0x99]` the ModRM byte 0x04 has r/m = 4 and
mod ≠ 3 (the SIB escape pattern of x86) yet no SIB byte is consumed. -/
theorem c2_sib_field_counterexample :
    ((eat [0x00, 0x20, 0x99] true).map (fun p => p.1.sib) = .ok (some 0x99) ∧
      (0x20 : Nat) &&& 7 ≠ 4) ∧
    ((eat [0x00, 0x04, 0x99] true).map (fun p => p.1.sib) = .ok none ∧
      (0x04 : Nat) &&& 7 = 4 ∧ (0x04 : Nat) &&& 192 ≠ 192) := by
  decide

/-- C2 (amended): a SIB byte is present iff a ModRM byte is present,
the effective address width is 32-bit (default width XOR
address-override prefix), the ModRM byte's middle (reg) field — bits
5..3, i.e. `modrm & 56 == 32` — equals 4, and the addressing mode is
not register-direct (`modrm & 192 != 192`); when present, exactly one
SIB byte is consumed (the cursor advance equals `Inst::len`, which
charges one byte for a present SIB). -/
theorem c2_sib_presence (code : List Nat) (is_32c : Bool) (inst : Inst)
    (efin : SimpleEater) (h : eat code is_32c = .ok (inst, efin)) :
    inst.sib.isSome = (match inst.modrm with
      | some m => (is_32c ^^ inst.addr_pfx.isSome) && ((m &&& 56) == 32) && ((m &&& 192) != 192)
      | none => false) ∧
    efin.pos = inst.len :=
  ⟨(eat_ok_spec h).2.2.2.2, (eat_ok_spec h).2.1⟩

/-- The decode of `[0x00, 0x20, 0x99]` with 32-bit default width:
ModRM 0x20 (reg field = 4), SIB byte consumed. -/
def cInstSib : Inst :=
  { pos := 0, is_invalid := false, is_32c := true, inst_pfx := none, addr_pfx := none,
    size_pfx := none, segm_pfx := none, opcode := 0x00, opcode2 := none, modrm := some 0x20,
    sib := some 0x99, displacement := Immediate.None, immediate := Immediate.None }

/-- Witness for C2 at `[0x00, 0x20, 0x99]` with 32-bit default width. -/
theorem c2_sib_presence_witness :
    cInstSib.sib.isSome = (match cInstSib.modrm with
      | some m => (true ^^ cInstSib.addr_pfx.isSome) && ((m &&& 56) == 32) && ((m &&& 192) != 192)
      | none => false) ∧
    ({ code := [0x00, 0x20, 0x99], pos := 3 } : SimpleEater).pos = cInstSib.len :=
  c2_sib_presence [0x00, 0x20, 0x99] true cInstSib
    { code := [0x00, 0x20, 0x99], pos := 3 } (by decide)

/-- The decode of `inc cx` (0x41), at position 1. -/
def cInst41 : Inst :=
  { pos := 1, is_invalid := false, is_32c := false, inst_pfx := none, addr_pfx := none,
    size_pfx := none, segm_pfx := none, opcode := 0x41, opcode2 := none, modrm := none,
    sib := none, displacement := Immediate.None, immediate := Immediate.None }

/-- Evaluation of the disassembly loop on the two-byte code segment
`40 41` with 16-bit default width. -/
theorem disassemble_forty_fortyone :
    disassemble [0x40, 0x41] false = [cInst40, cInst41] := by
  have h0 : disStep [0x40, 0x41] 0 false = cInst40 := by decide
  have h1 : disStep [0x40, 0x41] 1 false = { cInst41 with pos := 0 } := by decide
  simp only [disassemble]
  unfold disassembleLoop
  simp only [h0, h1]
  norm_num [Inst.len, Immediate.len, cInst40, cInst41]
  unfold disassembleLoop
  norm_num [Inst.len, Immediate.len, h1, cInst40, cInst41]
  unfold disassembleLoop
  norm_num

/-- C8 counterexample: disassembling `40 41` with the 32-bit flag
false yields two instructions whose rendered textual forms are both
the placeholder "...": the renderings are identical, so they do not
distinguish the two registers. -/
theorem c8_rendering_counterexample :
    (disassemble [0x40, 0x41] false).map Inst.fmt = ["...", "..."] ∧
    ¬ ((disassemble [0x40, 0x41] false).map Inst.fmt).Nodup := by
  rw [disassemble_forty_fortyone]
  constructor
  · decide
  · decide

/-- C8 (amended): disassembling `40 41` with the 32-bit flag false
yields exactly two decoded instructions, each of length 1 (opcode
only: no prefix, no second opcode, no ModRM, no SIB, no displacement,
no immediate), neither marked invalid; both render as the generic
placeholder "..." (the renderer does not cover the inc/dec opcode
rows), so the textual forms do not distinguish the two registers. -/
theorem c8_two_inc_instructions :
    disassemble [0x40, 0x41] false = [cInst40, cInst41] ∧
    (disassemble [0x40, 0x41] false).map Inst.len = [1, 1] ∧
    (disassemble [0x40, 0x41] false).map Inst.fmt = ["...", "..."] ∧
    cInst40.is_invalid = false ∧ cInst41.is_invalid = false ∧
    cInst40.opcode = 0x40 ∧ cInst41.opcode = 0x41 ∧
    cInst40.modrm = none ∧ cInst41.modrm = none ∧
    cInst40.sib = none ∧ cInst41.sib = none ∧
    cInst40.displacement = Immediate.None ∧ cInst41.displacement = Immediate.None ∧
    cInst40.immediate = Immediate.None ∧ cInst41.immediate = Immediate.None := by
  refine ⟨disassemble_forty_fortyone, ?_, ?_, rfl, rfl, rfl, rfl, rfl, rfl, rfl, rfl,
    rfl, rfl, rfl, rfl⟩
  · rw [disassemble_forty_fortyone]
    decide
  · rw [disassemble_forty_fortyone]
    decide

/-- C1: evaluation of `EntryTable::read_sf` at the inputs where the
claim fails.  With a declared length of 1 and only the declared byte
available, the decoder attempts a 2-byte bundle-header read past the
budget (UnexpectedEof); with more stream bytes available it reads 1
byte past the declared length and the unchecked `bytes_remaining -= 2`
underflows (modeled as the debug-build abort `overflow`).  The
per-bundle record check itself does behave as the claim says: a bundle
whose records exceed the remaining budget fails with the InvalidData
(`InconsistentLength`) error before its records are read (third
conjunct). -/
theorem c1_read_sf_budget_underflow :
    EntryTable.read_sf 1 [1] = .error IoErr.unexpectedEof ∧
    EntryTable.read_sf 1 [1, 1, 0, 0, 0] = .error IoErr.overflow ∧
    EntryTable.read_sf 4 [1, 1, 9, 9, 9] = .error IoErr.invalidData := by
  refine ⟨?_, ?_, ?_⟩ <;>
    simp [EntryTable.read_sf, EntryTable.read_sf_loop, takeExact, bind, Except.bind]

/-- C9: the iterated-segment decompressor reads a 2-byte little-endian
iteration count, a 2-byte little-endian raw-run length, then that many
raw-run bytes, and returns the raw run repeated `iterations` times;
the output length is iterations x raw-run length. -/
theorem c9_iterated_segment (data : List Nat)
    (h : 4 + le16 (data.getD 2 0) (data.getD 3 0) ≤ data.length) :
    iter_segment_bytes data =
      some (listRepeat ((data.drop 4).take (le16 (data.getD 2 0) (data.getD 3 0)))
        (le16 (data.getD 0 0) (data.getD 1 0))) ∧
    (listRepeat ((data.drop 4).take (le16 (data.getD 2 0) (data.getD 3 0)))
        (le16 (data.getD 0 0) (data.getD 1 0))).length =
      le16 (data.getD 0 0) (data.getD 1 0) * le16 (data.getD 2 0) (data.getD 3 0) := by
  constructor
  · unfold iter_segment_bytes
    rw [if_pos (by omega), if_pos h]
  · simp only [listRepeat, List.length_flatten, List.map_replicate, List.sum_replicate,
      smul_eq_mul, List.length_take, List.length_drop]
    have : min (le16 (data.getD 2 0) (data.getD 3 0)) (data.length - 4) =
        le16 (data.getD 2 0) (data.getD 3 0) := by omega
    rw [this]

/-- Witness for C9 at the payload `[2, 0, 3, 0, 1, 2, 3]`
(2 iterations of the 3-byte run `1 2 3`). -/
theorem c9_iterated_segment_witness :
    iter_segment_bytes [2, 0, 3, 0, 1, 2, 3] =
      some (listRepeat ((([2, 0, 3, 0, 1, 2, 3] : List Nat).drop 4).take
        (le16 (([2, 0, 3, 0, 1, 2, 3] : List Nat).getD 2 0) (([2, 0, 3, 0, 1, 2, 3] : List Nat).getD 3 0)))
        (le16 (([2, 0, 3, 0, 1, 2, 3] : List Nat).getD 0 0) (([2, 0, 3, 0, 1, 2, 3] : List Nat).getD 1 0))) ∧
    (listRepeat ((([2, 0, 3, 0, 1, 2, 3] : List Nat).drop 4).take
        (le16 (([2, 0, 3, 0, 1, 2, 3] : List Nat).getD 2 0) (([2, 0, 3, 0, 1, 2, 3] : List Nat).getD 3 0)))
        (le16 (([2, 0, 3, 0, 1, 2, 3] : List Nat).getD 0 0) (([2, 0, 3, 0, 1, 2, 3] : List Nat).getD 1 0))).length =
      le16 (([2, 0, 3, 0, 1, 2, 3] : List Nat).getD 0 0) (([2, 0, 3, 0, 1, 2, 3] : List Nat).getD 1 0) *
        le16 (([2, 0, 3, 0, 1, 2, 3] : List Nat).getD 2 0) (([2, 0, 3, 0, 1, 2, 3] : List Nat).getD 3 0) :=
  c9_iterated_segment [2, 0, 3, 0, 1, 2, 3] (by decide)

/-- C6: a stored segment data-length of 0 means 0x10000 and a stored
minimum-allocation of 0 means 0x10000, in the accessors
`data_length()`/`min_alloc()` and in everything derived from them; in
particular `read_data` reads exactly `data_length()` bytes (from the
shifted data offset) whenever the stored offset is non-zero, and reads
nothing for a zero stored offset. -/
theorem c6_segment_sentinels (seg : NeSegment) (s : RState) (seg' : NeSegment) (s' : RState) :
    (seg.data_length = if seg.header.data_length = 0 then 0x10000 else seg.header.data_length) ∧
    (seg.min_alloc = if seg.header.min_alloc = 0 then 0x10000 else seg.header.min_alloc) ∧
    (NeSegment.read_data seg s = .ok (seg', s') →
      (seg.header.data_offset_shifted = 0 → seg' = seg ∧ s' = s) ∧
      (seg.header.data_offset_shifted ≠ 0 →
        ∃ d, seg'.data = some d ∧ d.length = seg.data_length ∧
          d = (s.file.drop seg.data_offset).take seg.data_length)) := by
  refine ⟨?_, ?_, ?_⟩
  · by_cases h : seg.header.data_length = 0 <;> simp [NeSegment.data_length, h]
  · by_cases h : seg.header.min_alloc = 0 <;> simp [NeSegment.min_alloc, h]
  · intro h
    unfold NeSegment.read_data at h
    by_cases hz : seg.header.data_offset_shifted = 0
    · rw [if_pos (by simp [hz])] at h
      simp only [pure] at h
      cases h
      exact ⟨fun _ => ⟨rfl, rfl⟩, fun hnz => absurd hz hnz⟩
    · rw [if_neg (by simp [hz])] at h
      dsimp only [bind, seekStart, readBytes, pure] at h
      split at h
      · cases h
      · rename_i a1 s1 hle
        cases h
        split at hle
        · rename_i hcond
          cases hle
          refine ⟨fun h0 => absurd h0 hz, fun _ => ⟨(s.file.drop seg.data_offset).take seg.data_length,
            rfl, ?_, rfl⟩⟩
          simp only [List.length_take, List.length_drop]
          omega
        · cases hle

/-- A concrete segment record for the C6 witness: stored offset 1,
shift 0, stored length 2. -/
def c6seg : NeSegment :=
  { header := { data_offset_shifted := 1, data_length := 2, flags := 0, min_alloc := 5 }
    shift_count := 0
    data := none }

/-- A concrete 4-byte file for the C6 witness. -/
def c6state : RState := { file := [7, 9, 8, 6], pos := 0, seeks := [] }

/-- Witness for C6 at `c6seg`/`c6state`. -/
theorem c6_segment_sentinels_witness :
    (c6seg.data_length = if c6seg.header.data_length = 0 then 0x10000 else c6seg.header.data_length) ∧
    (c6seg.min_alloc = if c6seg.header.min_alloc = 0 then 0x10000 else c6seg.header.min_alloc) ∧
    ∃ d, ({ header := c6seg.header, shift_count := 0, data := some [9, 8] } : NeSegment).data = some d ∧
      d.length = c6seg.data_length ∧
      d = (c6state.file.drop c6seg.data_offset).take c6seg.data_length := by
  have h := c6_segment_sentinels c6seg c6state
    { header := c6seg.header, shift_count := 0, data := some [9, 8] }
    { file := [7, 9, 8, 6], pos := 3, seeks := [1] }
  exact ⟨h.1, h.2.1, ((h.2.2 (by decide)).2 (by decide))⟩

/-- C5: for an 8-byte relocation record (embedded in a one-record
table so that `RelocationTable::read` itself is exercised), the low 2
bits of the flags byte `b1` select the target variant: 0 yields
`Internal` (segment byte `b4`, moveable iff `b4 = 0xFF`, 16-bit
offset-or-ordinal), 1 yields `ImportByOrdinal` (module index and
ordinal), 2 yields `ImportByName` (module index and name offset), and
3 fails with the InvalidData decode error; bit 2 of the flags byte
sets `is_additive`. -/
theorem c5_relocation_dispatch (b0 b1 b2 b3 b4 b5 b6 b7 : Nat) (rest : List Nat) :
    RelocationTable.read (1 :: 0 :: b0 :: b1 :: b2 :: b3 :: b4 :: b5 :: b6 :: b7 :: rest) =
      (if b1 &&& 3 == 0 then
        .ok ({ entries := [{ address_type := b0
                             reloc_type := b1 &&& 3
                             is_additive := (b1 &&& 4) != 0
                             segment_offset := le16 b2 b3
                             target := RelocationTarget.Internal
                               { segment := b4
                                 is_movable := b4 == 0xFF
                                 offset_or_ordinal := le16 b6 b7 } }] }, rest)
      else if b1 &&& 3 == 1 then
        .ok ({ entries := [{ address_type := b0
                             reloc_type := b1 &&& 3
                             is_additive := (b1 &&& 4) != 0
                             segment_offset := le16 b2 b3
                             target := RelocationTarget.ImportByOrdinal
                               { module_index := le16 b4 b5
                                 ordinal := le16 b6 b7 } }] }, rest)
      else if b1 &&& 3 == 2 then
        .ok ({ entries := [{ address_type := b0
                             reloc_type := b1 &&& 3
                             is_additive := (b1 &&& 4) != 0
                             segment_offset := le16 b2 b3
                             target := RelocationTarget.ImportByName
                               { module_index := le16 b4 b5
                                 name_offset := le16 b6 b7 } }] }, rest)
      else .error IoErr.invalidData) := by
  have t2 : takeExact 2 (1 :: 0 :: b0 :: b1 :: b2 :: b3 :: b4 :: b5 :: b6 :: b7 :: rest) =
      .ok ([1, 0], b0 :: b1 :: b2 :: b3 :: b4 :: b5 :: b6 :: b7 :: rest) := by
    unfold takeExact
    rw [if_pos (by simp)]
    rfl
  have t8 : takeExact 8 (b0 :: b1 :: b2 :: b3 :: b4 :: b5 :: b6 :: b7 :: rest) =
      .ok ([b0, b1, b2, b3, b4, b5, b6, b7], rest) := by
    unfold takeExact
    rw [if_pos (by simp)]
    rfl
  simp only [RelocationTable.read, readRelocationEntries, readRelocationEntry,
    bind, Except.bind, pure, Except.pure, t2, t8]
  simp only [List.getD_cons_zero, List.getD_cons_succ, le16]
  by_cases h0 : b1 &&& 3 = 0
  · simp [beq_iff_eq, h0, le16]
  · by_cases h1 : b1 &&& 3 = 1
    · simp [beq_iff_eq, h0, h1, le16]
    · by_cases h2 : b1 &&& 3 = 2
      · simp [beq_iff_eq, h0, h1, h2, le16]
      · simp [beq_iff_eq, h0, h1, h2, le16]

/-- The rest of a successful `takeExact` is the dropped suffix. -/
theorem takeExact_drop {n : Nat} {l buf rest : List Nat}
    (h : takeExact n l = .ok (buf, rest)) : rest = l.drop n := by
  unfold takeExact at h
  split at h
  · cases h
    rfl
  · cases h

/-- A successful type-header read leaves the 8-dropped suffix. -/
theorem resourceTypeHeader_read_drop {l : List Nat} {hd : NeResourceTypeHeader}
    {rest : List Nat} (h : NeResourceTypeHeader.read l = .ok (hd, rest)) :
    rest = l.drop 8 := by
  unfold NeResourceTypeHeader.read at h
  simp only [bind, Except.bind, pure, Except.pure] at h
  cases htake : takeExact 8 l with
  | error e => simp only [htake] at h; cases h
  | ok p =>
    obtain ⟨buf, l1⟩ := p
    simp only [htake] at h
    cases h
    exact takeExact_drop htake

/-- `readResources` leaves some dropped suffix of its input. -/
theorem readResources_drop {n : Nat} {l : List Nat} {rs : List NeResource}
    {rest : List Nat} (h : readResources n l = .ok (rs, rest)) :
    ∃ k, rest = l.drop k := by
  induction n generalizing l rs rest with
  | zero =>
    unfold readResources at h
    cases h
    exact ⟨0, rfl⟩
  | succ n ih =>
    unfold readResources at h
    simp only [NeResource.read, NeResourceHeader.read, bind, Except.bind, pure, Except.pure] at h
    cases htake : takeExact 12 l with
    | error e => simp only [htake] at h; cases h
    | ok p =>
      obtain ⟨buf, l1⟩ := p
      simp only [htake] at h
      cases hrec : readResources n l1 with
      | error e => simp only [hrec] at h; cases h
      | ok q =>
        obtain ⟨rs1, l2⟩ := q
        simp only [hrec] at h
        cases h
        obtain ⟨k, hk⟩ := ih hrec
        refine ⟨12 + k, ?_⟩
        rw [hk, takeExact_drop htake, List.drop_drop]

/-- Case analysis of `NeResourceType::read_opt`: a `none` result means
the 8-byte header just consumed has `type_id == 0` (the sentinel); a
`some` result has a non-zero `type_id` and leaves a dropped suffix. -/
theorem read_opt_cases {l : List Nat} {x : Option NeResourceType} {rest : List Nat}
    (h : NeResourceType.read_opt l = .ok (x, rest)) :
    (x = none → ∃ hd, NeResourceTypeHeader.read l = .ok (hd, rest) ∧ hd.type_id = 0) ∧
    (∀ t, x = some t → t.header.type_id ≠ 0 ∧ ∃ k, rest = l.drop k) := by
  unfold NeResourceType.read_opt at h
  simp only [bind, Except.bind, pure, Except.pure] at h
  cases hh : NeResourceTypeHeader.read l with
  | error e => simp only [hh] at h; cases h
  | ok p =>
    obtain ⟨hd, l1⟩ := p
    simp only [hh] at h
    split at h
    · rename_i hid
      cases h
      simp only [beq_iff_eq] at hid
      exact ⟨fun _ => ⟨hd, rfl, hid⟩, fun t ht => by cases ht⟩
    · rename_i hid
      simp only [beq_iff_eq] at hid
      cases hres : readResources hd.num_resources l1 with
      | error e => simp only [hres] at h; cases h
      | ok q =>
        obtain ⟨rs, l2⟩ := q
        simp only [hres] at h
        cases h
        constructor
        · intro hx
          cases hx
        · intro t ht
          cases ht
          refine ⟨hid, ?_⟩
          obtain ⟨k, hk⟩ := readResources_drop hres
          refine ⟨8 + k, ?_⟩
          rw [hk, resourceTypeHeader_read_drop hh, List.drop_drop]

/-- The sentinel-mode loop: every collected type has a non-zero
type-id, and the bytes consumed end with an 8-byte header whose
type-id is 0 — the sentinel record, excluded from the result, with
decoding resuming right after it. -/
theorem readVariadicTypes_sentinel (fuel : Nat) :
    ∀ (l : List Nat) (ts : List NeResourceType) (rest : List Nat), l.length ≤ fuel →
    readVariadicTypes l = .ok (ts, rest) →
    (∀ ty ∈ ts, ty.header.type_id ≠ 0) ∧
    ∃ k hd, NeResourceTypeHeader.read (l.drop k) = .ok (hd, rest) ∧ hd.type_id = 0 := by
  induction fuel with
  | zero =>
    intro l ts rest hf h
    unfold readVariadicTypes at h
    split at h
    · cases h
    · rename_i l1 hstep
      cases h
      obtain ⟨hnone, _⟩ := read_opt_cases hstep
      obtain ⟨hd, hh, hid⟩ := hnone rfl
      have := read_opt_length_lt hstep
      omega
    · rename_i t l1 hstep
      have := read_opt_length_lt hstep
      omega
  | succ n ih =>
    intro l ts rest hf h
    unfold readVariadicTypes at h
    split at h
    · cases h
    · rename_i l1 hstep
      cases h
      obtain ⟨hnone, _⟩ := read_opt_cases hstep
      obtain ⟨hd, hh, hid⟩ := hnone rfl
      refine ⟨by simp, 0, hd, ?_, hid⟩
      rw [List.drop_zero]
      exact hh
    · rename_i t l1 hstep
      cases hrec : readVariadicTypes l1 with
      | error e => simp only [hrec] at h; cases h
      | ok q =>
        obtain ⟨ts1, l2⟩ := q
        simp only [hrec] at h
        cases h
        obtain ⟨_, hsome⟩ := read_opt_cases hstep
        obtain ⟨hne, k1, hk1⟩ := hsome t rfl
        have hlen := read_opt_length_lt hstep
        obtain ⟨hall, k, hd, hh, hid⟩ := ih l1 ts1 rest (by omega) hrec
        refine ⟨?_, ?_⟩
        · intro ty hty
          cases hty with
          | head => exact hne
          | tail _ hmem => exact hall ty hmem
        · refine ⟨k1 + k, hd, ?_, hid⟩
          rw [← List.drop_drop, ← hk1]
          exact hh

/-- Fixed-count mode reads exactly `n` type records. -/
theorem readResourceTypes_length {n : Nat} {l : List Nat} {ts : List NeResourceType}
    {rest : List Nat} (h : readResourceTypes n l = .ok (ts, rest)) :
    ts.length = n := by
  induction n generalizing l ts rest with
  | zero =>
    unfold readResourceTypes at h
    cases h
    rfl
  | succ n ih =>
    unfold readResourceTypes at h
    simp only [bind, Except.bind, pure, Except.pure] at h
    cases h1 : NeResourceType.read l with
    | error e => simp only [h1] at h; cases h
    | ok p =>
      obtain ⟨t, l1⟩ := p
      simp only [h1] at h
      cases h2 : readResourceTypes n l1 with
      | error e => simp only [h2] at h; cases h
      | ok q =>
        obtain ⟨ts1, l2⟩ := q
        simp only [h2] at h
        cases h
        simp [ih h2]

/-- A successful table-header read leaves the 2-dropped suffix. -/
theorem resourceTableHeader_read_drop {l : List Nat} {hd : NeResourceTableHeader}
    {rest : List Nat} (h : NeResourceTableHeader.read l = .ok (hd, rest)) :
    rest = l.drop 2 := by
  unfold NeResourceTableHeader.read at h
  simp only [bind, Except.bind, pure, Except.pure] at h
  cases htake : takeExact 2 l with
  | error e => simp only [htake] at h; cases h
  | ok p =>
    obtain ⟨buf, l1⟩ := p
    simp only [htake] at h
    cases h
    exact takeExact_drop htake

/-- C4: resource-table decoding is sentinel-terminated exactly when
the header count is 0xFFFF: `resourceTableStep` (the dispatch in
`NeExecutable::read`) selects `read_variadic` for 0xFFFF and the
fixed-count `read` otherwise; `read_variadic` stops at the first
resource-type record whose type-id is 0, excluding that sentinel
record from the result (all returned types have non-zero ids and the
consumed bytes end with the type-id-0 header); fixed-count mode reads
exactly `count` records with no sentinel check. -/
theorem c4_resource_table_modes (n : Nat) (l : List Nat) :
    (resourceTableStep 0xFFFF l = NeResourceTable.read_variadic l) ∧
    (n ≠ 0xFFFF → resourceTableStep n l = NeResourceTable.read l n) ∧
    (∀ tbl rest, NeResourceTable.read_variadic l = .ok (tbl, rest) →
      (∀ ty ∈ tbl.resource_types, ty.header.type_id ≠ 0) ∧
      ∃ k hd, NeResourceTypeHeader.read (l.drop k) = .ok (hd, rest) ∧ hd.type_id = 0) ∧
    (∀ tbl rest, NeResourceTable.read l n = .ok (tbl, rest) →
      tbl.resource_types.length = n) := by
  refine ⟨rfl, ?_, ?_, ?_⟩
  · intro hn
    unfold resourceTableStep
    rw [if_neg (by simpa using hn)]
  · intro tbl rest h
    unfold NeResourceTable.read_variadic at h
    simp only [bind, Except.bind, pure, Except.pure] at h
    cases hh : NeResourceTableHeader.read l with
    | error e => simp only [hh] at h; cases h
    | ok p =>
      obtain ⟨hdr, l1⟩ := p
      simp only [hh] at h
      cases hv : readVariadicTypes l1 with
      | error e => simp only [hv] at h; cases h
      | ok q =>
        obtain ⟨ts, l2⟩ := q
        simp only [hv] at h
        cases h
        obtain ⟨hall, k, shd, hsh, hid⟩ :=
          readVariadicTypes_sentinel l1.length l1 ts rest (Nat.le_refl _) hv
        refine ⟨hall, 2 + k, shd, ?_, hid⟩
        rw [← List.drop_drop, ← resourceTableHeader_read_drop hh]
        exact hsh
  · intro tbl rest h
    unfold NeResourceTable.read at h
    simp only [bind, Except.bind, pure, Except.pure] at h
    cases hh : NeResourceTableHeader.read l with
    | error e => simp only [hh] at h; cases h
    | ok p =>
      obtain ⟨hdr, l1⟩ := p
      simp only [hh] at h
      cases hr : readResourceTypes n l1 with
      | error e => simp only [hr] at h; cases h
      | ok q =>
        obtain ⟨ts, l2⟩ := q
        simp only [hr] at h
        cases h
        exact readResourceTypes_length hr

/-- A concrete resource-table stream for the C4 witness: alignment
shift 0, one type record (id 7, one resource), the type-id-0 sentinel
header, then a junk byte. -/
def c4stream : List Nat :=
  [0, 0,
   7, 0, 1, 0, 0, 0, 0, 0,
   1, 0, 2, 0, 3, 0, 4, 0, 5, 0, 6, 0,
   0, 0, 0, 0, 0, 0, 0, 0,
   9]

/-- The table decoded from `c4stream`. -/
def c4tbl : NeResourceTable :=
  { header := { alignment_shift_count := 0 }
    resource_types := [
      { header := { type_id := 7, num_resources := 1, res := (0, 0) }
        resources := [
          { header := { data_offset_shifted := 1, data_length := 2, flags := 3,
                        resource_id := 4, res := (5, 6) } }] }] }

/-- Witness for C4 at `c4stream` with count 1: the fixed-mode reader
returns exactly one type record (stopping before the sentinel), and
the sentinel-mode reader stops at the type-id-0 header, excluding it. -/
theorem c4_resource_table_modes_witness :
    (resourceTableStep 0xFFFF c4stream = NeResourceTable.read_variadic c4stream) ∧
    (resourceTableStep 1 c4stream = NeResourceTable.read c4stream 1) ∧
    ((∀ ty ∈ c4tbl.resource_types, ty.header.type_id ≠ 0) ∧
      ∃ k hd, NeResourceTypeHeader.read (c4stream.drop k) = .ok (hd, [9]) ∧ hd.type_id = 0) ∧
    c4tbl.resource_types.length = 1 := by
  have hv : NeResourceTable.read_variadic c4stream = .ok (c4tbl, [9]) := by
    simp [NeResourceTable.read_variadic, readVariadicTypes, NeResourceType.read_opt,
      NeResourceTypeHeader.read, readResources, NeResource.read, NeResourceHeader.read,
      NeResourceTableHeader.read, takeExact, getU16, le16, bind, Except.bind,
      pure, Except.pure, c4stream, c4tbl]
  have hf : NeResourceTable.read c4stream 1 = .ok (c4tbl, [0, 0, 0, 0, 0, 0, 0, 0, 9]) := by
    decide
  have h := c4_resource_table_modes 1 c4stream
  exact ⟨h.1, h.2.1 (by decide), h.2.2.1 c4tbl [9] hv, h.2.2.2 c4tbl
    [0, 0, 0, 0, 0, 0, 0, 0, 9] hf⟩

/-- A sequential decoder run at the cursor does not seek and does not
change the file. -/
theorem runAt_state {α : Type} {f : List Nat → Except IoErr (α × List Nat)} {s : RState}
    {a : α} {s' : RState} (h : runAt f s = .ok (a, s')) :
    s'.file = s.file ∧ s'.seeks = s.seeks := by
  unfold runAt at h
  cases hf : f (s.file.drop s.pos) with
  | error e => simp only [hf] at h; cases h
  | ok p =>
    obtain ⟨b, rest⟩ := p
    simp only [hf] at h
    cases h
    exact ⟨rfl, rfl⟩

/-- Lifting a pure `Except` touches no state. -/
theorem liftE_state {α : Type} {e : Except IoErr α} {s : RState} {a : α} {s' : RState}
    (h : liftE e s = .ok (a, s')) : s' = s := by
  unfold liftE at h
  cases e with
  | error er => cases h
  | ok b => cases h; rfl

/-- `readBytes` does not seek and does not change the file. -/
theorem readBytes_state {n : Nat} {s : RState} {d : List Nat} {s' : RState}
    (h : readBytes n s = .ok (d, s')) : s'.file = s.file ∧ s'.seeks = s.seeks := by
  unfold readBytes at h
  split at h
  · cases h
    exact ⟨rfl, rfl⟩
  · cases h

/-- `read_name` seeks exactly once, to the import-name base plus the
entry's stored offset, and preserves the entry's header and the file. -/
theorem read_name_state {e : ModuleReferenceEntry} {off : Nat} {s : RState}
    {e' : ModuleReferenceEntry} {s' : RState}
    (h : ModuleReferenceEntry.read_name e off s = .ok (e', s')) :
    s'.file = s.file ∧ s'.seeks = s.seeks ++ [off + e.header.offset] ∧ e'.header = e.header := by
  unfold ModuleReferenceEntry.read_name at h
  dsimp only [bind, pure, seekStart] at h
  cases h1 : readBytes 1 { s with pos := off + e.header.offset, seeks := s.seeks ++ [off + e.header.offset] } with
  | error er => simp only [h1] at h; cases h
  | ok p =>
    obtain ⟨lenBuf, s1⟩ := p
    simp only [h1] at h
    cases h2 : readBytes (lenBuf.getD 0 0) s1 with
    | error er => simp only [h2] at h; cases h
    | ok q =>
      obtain ⟨name, s2⟩ := q
      simp only [h2] at h
      cases h
      obtain ⟨f1, k1⟩ := readBytes_state h1
      obtain ⟨f2, k2⟩ := readBytes_state h2
      exact ⟨by rw [f2, f1], by rw [k2, k1], rfl⟩

/-- The `read_names` per-entry loop seeks once per entry, at
(import-name base + that entry's stored offset), preserves each
entry's header and the file. -/
theorem read_names_list_state {off : Nat} :
    ∀ {entries : List ModuleReferenceEntry} {s : RState}
      {entries' : List ModuleReferenceEntry} {s' : RState},
    read_names_list off entries s = .ok (entries', s') →
    s'.file = s.file ∧
      s'.seeks = s.seeks ++ entries'.map (fun e => off + e.header.offset) ∧
      entries'.map ModuleReferenceEntry.header = entries.map ModuleReferenceEntry.header := by
  intro entries
  induction entries with
  | nil =>
    intro s entries' s' h
    unfold read_names_list at h
    dsimp only [pure] at h
    cases h
    simp
  | cons e es ih =>
    intro s entries' s' h
    unfold read_names_list at h
    dsimp only [bind, pure] at h
    cases h1 : ModuleReferenceEntry.read_name e off s with
    | error er => simp only [h1] at h; cases h
    | ok p =>
      obtain ⟨e1, s1⟩ := p
      simp only [h1] at h
      cases h2 : read_names_list off es s1 with
      | error er => simp only [h2] at h; cases h
      | ok q =>
        obtain ⟨es1, s2⟩ := q
        simp only [h2] at h
        cases h
        obtain ⟨f1, k1, hd1⟩ := read_name_state h1
        obtain ⟨f2, k2, hd2⟩ := ih h2
        refine ⟨by rw [f2, f1], ?_, ?_⟩
        · rw [k2, k1]
          simp [hd1]
        · simp [hd1, hd2]

/-- `read_names` seeks once per module-reference entry and preserves
the headers and the file. -/
theorem read_names_state {t : ModuleReferenceTable} {off : Nat} {s : RState}
    {t' : ModuleReferenceTable} {s' : RState}
    (h : ModuleReferenceTable.read_names t off s = .ok (t', s')) :
    s'.file = s.file ∧
      s'.seeks = s.seeks ++ t'.entries.map (fun e => off + e.header.offset) := by
  unfold ModuleReferenceTable.read_names at h
  dsimp only [bind, pure] at h
  cases h1 : read_names_list off t.entries s with
  | error er => simp only [h1] at h; cases h
  | ok p =>
    obtain ⟨es, s1⟩ := p
    simp only [h1] at h
    cases h
    obtain ⟨f1, k1, _⟩ := read_names_list_state h1
    exact ⟨f1, k1⟩

/-- Loading one segment's data appends 0 or 1 seek targets and
preserves the file. -/
theorem read_data_seeks {seg : NeSegment} {s : RState} {seg' : NeSegment} {s' : RState}
    (h : NeSegment.read_data seg s = .ok (seg', s')) :
    s'.file = s.file ∧ ∃ ds, s'.seeks = s.seeks ++ ds := by
  unfold NeSegment.read_data at h
  split at h
  · dsimp only [pure] at h
    cases h
    exact ⟨rfl, [], by simp⟩
  · dsimp only [bind, pure, seekStart] at h
    cases h1 : readBytes seg.data_length { s with pos := seg.data_offset, seeks := s.seeks ++ [seg.data_offset] } with
    | error er => simp only [h1] at h; cases h
    | ok p =>
      obtain ⟨d, s1⟩ := p
      simp only [h1] at h
      cases h
      obtain ⟨f1, k1⟩ := readBytes_state h1
      exact ⟨f1, [seg.data_offset], by rw [k1]⟩

/-- The final segment-data loop only appends further (data and
relocation) activity after the existing trace and preserves the file. -/
theorem readSegmentsData_seeks :
    ∀ {segs : List NeSegment} {s : RState} {out : List NeSegment × List RelocationTable}
      {s' : RState},
    readSegmentsData segs s = .ok (out, s') →
    s'.file = s.file ∧ ∃ ds, s'.seeks = s.seeks ++ ds := by
  intro segs
  induction segs with
  | nil =>
    intro s out s' h
    unfold readSegmentsData at h
    dsimp only [pure] at h
    cases h
    exact ⟨rfl, [], by simp⟩
  | cons seg rest ih =>
    intro s out s' h
    unfold readSegmentsData at h
    dsimp only [bind, pure] at h
    cases h1 : NeSegment.read_data seg s with
    | error er => simp only [h1] at h; cases h
    | ok p =>
      obtain ⟨seg1, s1⟩ := p
      simp only [h1] at h
      split at h
      · rename_i hfl
        cases h2 : runAt RelocationTable.read s1 with
        | error er => simp only [h2] at h; cases h
        | ok q =>
          obtain ⟨r, s2⟩ := q
          simp only [h2] at h
          cases h3 : readSegmentsData rest s2 with
          | error er => simp only [h3] at h; cases h
          | ok w =>
            obtain ⟨rest1, s3⟩ := w
            simp only [h3] at h
            cases h
            obtain ⟨f1, d1, k1⟩ := read_data_seeks h1
            obtain ⟨f2, k2⟩ := runAt_state h2
            obtain ⟨f3, d3, k3⟩ := ih h3
            exact ⟨by rw [f3, f2, f1], d1 ++ d3, by rw [k3, k2, k1, List.append_assoc]⟩
      · cases h3 : readSegmentsData rest s1 with
        | error er => simp only [h3] at h; cases h
        | ok w =>
          obtain ⟨rest1, s3⟩ := w
          simp only [h3] at h
          cases h
          obtain ⟨f1, d1, k1⟩ := read_data_seeks h1
          obtain ⟨f3, d3, k3⟩ := ih h3
          exact ⟨by rw [f3, f1], d1 ++ d3, by rw [k3, k1, List.append_assoc]⟩

/-- C7: every table offset taken from the NE header except the
non-resident-name-table offset is added to the extended header's file
position (`lfanew`) before seeking, and the non-resident-name-table
offset is used as a file-absolute seek target with nothing added: a
successful `NeExecutable::read` leaves exactly the seek trace
\[lfanew, lfanew+segment, lfanew+resource, lfanew+resident-names,
lfanew+module-references\] ++ (per module reference:
lfanew+import-names+entry offset) ++ \[lfanew+entry-table,
non-resident-names (absolute)\], followed by the segment-data loading
seeks (which target shifted segment offsets, not header offsets). -/
theorem c7_seek_bases (s : RState) (exe : NeExecutable) (s' : RState)
    (h : NeExecutable.read s = .ok (exe, s')) :
    ∃ dataSeeks,
      s'.seeks = s.seeks ++
        [exe.dos_header.lfanew,
         exe.dos_header.lfanew + exe.ne_header.segment_table_offset,
         exe.dos_header.lfanew + exe.ne_header.resource_table_offset,
         exe.dos_header.lfanew + exe.ne_header.resident_names_table_offset,
         exe.dos_header.lfanew + exe.ne_header.module_reference_table_offset] ++
        exe.module_reference_table.entries.map
          (fun e => exe.dos_header.lfanew + exe.ne_header.import_name_table_offset
            + e.header.offset) ++
        [exe.dos_header.lfanew + exe.ne_header.entry_table_offset,
         exe.ne_header.non_resident_names_table_offset] ++
        dataSeeks := by
  unfold NeExecutable.read at h
  dsimp only [bind, pure] at h
  split at h
  · cases h
  rename_i dos s1 h1
  split at h
  · cases h
  rename_i u2 s2 h2
  split at h
  · cases h
  rename_i u3 s3 h3
  split at h
  · cases h
  rename_i hdr s4 h4
  split at h
  · cases h
  rename_i u5 s5 h5
  split at h
  · cases h
  rename_i u6 s6 h6
  split at h
  · cases h
  rename_i segs s7 h7
  split at h
  · cases h
  rename_i u8 s8 h8
  split at h
  · cases h
  rename_i rtbl s9 h9
  split at h
  · cases h
  rename_i u10 s10 h10
  split at h
  · cases h
  rename_i rnt s11 h11
  split at h
  · cases h
  rename_i u12 s12 h12
  split at h
  · cases h
  rename_i mrt s13 h13
  split at h
  · cases h
  rename_i mrt2 s14 h14
  split at h
  · cases h
  rename_i u15 s15 h15
  split at h
  · cases h
  rename_i etbl s16 h16
  split at h
  · cases h
  rename_i u17 s17 h17
  split at h
  · cases h
  rename_i nnt s18 h18
  split at h
  · cases h
  rename_i segout s19 h19
  cases h
  obtain ⟨f1, k1⟩ := runAt_state h1
  cases liftE_state h2
  simp only [seekStart] at h3
  cases h3
  obtain ⟨f4, k4⟩ := runAt_state h4
  cases liftE_state h5
  simp only [seekStart] at h6
  cases h6
  obtain ⟨f7, k7⟩ := runAt_state h7
  simp only [seekStart] at h8
  cases h8
  obtain ⟨f9, k9⟩ := runAt_state h9
  simp only [seekStart] at h10
  cases h10
  obtain ⟨f11, k11⟩ := runAt_state h11
  simp only [seekStart] at h12
  cases h12
  obtain ⟨f13, k13⟩ := runAt_state h13
  obtain ⟨f14, k14⟩ := read_names_state h14
  simp only [seekStart] at h15
  cases h15
  obtain ⟨f16, k16⟩ := runAt_state h16
  simp only [seekStart] at h17
  cases h17
  obtain ⟨f18, k18⟩ := runAt_state h18
  obtain ⟨f19, ds, k19⟩ := readSegmentsData_seeks h19
  refine ⟨ds, ?_⟩
  rw [k19, k18]
  dsimp only
  rw [k16]
  dsimp only
  rw [k14, k13]
  dsimp only
  rw [k11]
  dsimp only
  rw [k9]
  dsimp only
  rw [k7]
  dsimp only
  rw [k4]
  dsimp only
  rw [k1]
  simp [List.append_assoc]
/-- A minimal 132-byte NE file for the C7 witness: DOS header with
lfanew 64, NE header at 64 with zero segment/module/resource counts,
2-byte resource table at 128, empty resident-name table at 130,
empty nonresident-name table at absolute 131. -/
def c7file : List Nat :=
  [77, 90, 0, 0, 0, 0, 0, 0, 0, 0, 0, 0, 0, 0, 0, 0,
   0, 0, 0, 0, 0, 0, 0, 0, 0, 0, 0, 0, 0, 0, 0, 0,
   0, 0, 0, 0, 0, 0, 0, 0, 0, 0, 0, 0, 0, 0, 0, 0,
   0, 0, 0, 0, 0, 0, 0, 0, 0, 0, 0, 0, 64, 0, 0, 0,
   78, 69, 0, 0, 67, 0, 0, 0, 0, 0, 0, 0, 0, 0, 0, 0,
   0, 0, 0, 0, 0, 0, 0, 0, 0, 0, 0, 0, 0, 0, 0, 0,
   0, 0, 64, 0, 64, 0, 66, 0, 67, 0, 67, 0, 131, 0, 0, 0,
   0, 0, 0, 0, 0, 0, 0, 0, 0, 0, 0, 0, 0, 0, 0, 0,
   0, 0, 0, 0]

/-- The structure decoded from `c7file`. -/
def c7exe : NeExecutable :=
  { dos_header := {
      magic := 23117
      cblp := 0
      cp := 0
      crlc := 0
      cparhdr := 0
      minalloc := 0
      maxalloc := 0
      ss := 0
      sp := 0
      csum := 0
      ip := 0
      cs := 0
      lfarlc := 0
      ovno := 0
      res := [0, 0, 0, 0]
      oemid := 0
      oeminfo := 0
      res2 := [0, 0, 0, 0, 0, 0, 0, 0, 0, 0]
      lfanew := 64 }
    ne_header := {
      magic := (78, 69)
      major_linker_version := 0
      minor_linker_version := 0
      entry_table_offset := 67
      entry_table_length := 0
      file_load_crc := 0
      flags := 0
      auto_data_segment_index := 0
      init_heap_size := 0
      init_stack_size := 0
      entry_point := 0
      init_stack := 0
      segment_count := 0
      module_references := 0
      non_resident_names_size := 0
      segment_table_offset := 64
      resource_table_offset := 64
      resident_names_table_offset := 66
      module_reference_table_offset := 67
      import_name_table_offset := 67
      non_resident_names_table_offset := 131
      movable_entry_point_count := 0
      file_alignment_shift_count := 0
      resource_table_entries := 0
      target_os := 0
      os2_exe_flags := 0
      return_thunk_offset := 0
      segment_reference_thunk_offset := 0
      min_code_swap := 0
      expected_win_ver := (0, 0) }
    segment_entries := []
    resource_table := { header := { alignment_shift_count := 0 }, resource_types := [] }
    resident_name_table := { entries := [] }
    module_reference_table := { entries := [] }
    entry_table := { entries := [] }
    nonresident_name_table := { entries := [] }
    relocation_tables_per_segment := [] }

/-- The sentinel loops and entry-table loop evaluated on the tails of
`c7file` (their well-founded recursion does not reduce by `decide`, so
these provide the needed equations). -/
theorem c7loop_facts :
    readResidentNameEntries [0, 0] = .ok ([], [0]) ∧
    readNonresidentNameEntries [0] = .ok ([], []) ∧
    (∀ l, EntryTable.read_sf_loop 0 l = .ok ([], l)) := by
  refine ⟨?_, ?_, ?_⟩
  · have hv : ResidentNameEntry.read [0, 0] = .ok (none, [0]) := by decide
    unfold readResidentNameEntries
    split
    · rename_i e heq
      rw [hv] at heq
      cases heq
    · rename_i l1 heq
      rw [hv] at heq
      cases heq
      rfl
    · rename_i t l1 heq
      rw [hv] at heq
      simp at heq
  · have hv : NonresidentNameEntry.read [0] = .ok (none, []) := by decide
    unfold readNonresidentNameEntries
    split
    · rename_i e heq
      rw [hv] at heq
      cases heq
    · rename_i l1 heq
      rw [hv] at heq
      cases heq
      rfl
    · rename_i t l1 heq
      rw [hv] at heq
      simp at heq
  · intro l
    unfold EntryTable.read_sf_loop
    simp

set_option maxHeartbeats 1000000 in
set_option maxRecDepth 100000 in
theorem c7read_eval : NeExecutable.read { file := c7file, pos := 0, seeks := [] } =
    .ok (c7exe, { file := c7file, pos := 132, seeks := [64, 128, 128, 130, 131, 131, 131] }) := by
  obtain ⟨hres, hnres, hsf⟩ := c7loop_facts
  have hdrop130 : c7file.drop 130 = [0, 0] := by decide
  have hdrop131 : c7file.drop 131 = [0] := by decide
  have e1 : runAt DosHeader.read { file := c7file, pos := 0, seeks := [] } =
      .ok (c7exe.dos_header, { file := c7file, pos := 64, seeks := [] }) := by decide
  have e2 : liftE c7exe.dos_header.check_magic { file := c7file, pos := 64, seeks := ([] : List Nat) } =
      .ok ((), { file := c7file, pos := 64, seeks := [] }) := by decide
  have e3 : seekStart c7exe.dos_header.lfanew { file := c7file, pos := 64, seeks := ([] : List Nat) } =
      .ok ((), { file := c7file, pos := 64, seeks := [64] }) := by decide
  have e4 : runAt NeHeader.read { file := c7file, pos := 64, seeks := [64] } =
      .ok (c7exe.ne_header, { file := c7file, pos := 128, seeks := [64] }) := by decide
  have e5 : liftE c7exe.ne_header.check_magic { file := c7file, pos := 128, seeks := [64] } =
      .ok ((), { file := c7file, pos := 128, seeks := [64] }) := by decide
  have e6 : seekStart (c7exe.dos_header.lfanew + c7exe.ne_header.segment_table_offset)
        { file := c7file, pos := 128, seeks := [64] } =
      .ok ((), { file := c7file, pos := 128, seeks := [64, 128] }) := by decide
  have e7 : runAt (readSegmentEntries c7exe.ne_header.file_alignment_shift_count
        c7exe.ne_header.segment_count) { file := c7file, pos := 128, seeks := [64, 128] } =
      .ok (([] : List NeSegment), { file := c7file, pos := 128, seeks := [64, 128] }) := by decide
  have e8 : seekStart (c7exe.dos_header.lfanew + c7exe.ne_header.resource_table_offset)
        { file := c7file, pos := 128, seeks := [64, 128] } =
      .ok ((), { file := c7file, pos := 128, seeks := [64, 128, 128] }) := by decide
  have e9 : runAt (resourceTableStep c7exe.ne_header.resource_table_entries)
        { file := c7file, pos := 128, seeks := [64, 128, 128] } =
      .ok (c7exe.resource_table, { file := c7file, pos := 130, seeks := [64, 128, 128] }) := by
    decide
  have e10 : seekStart (c7exe.dos_header.lfanew + c7exe.ne_header.resident_names_table_offset)
        { file := c7file, pos := 130, seeks := [64, 128, 128] } =
      .ok ((), { file := c7file, pos := 130, seeks := [64, 128, 128, 130] }) := by decide
  have hresread : ResidentNameTable.read [0, 0] = .ok ({ entries := [] }, [0]) := by
    simp only [ResidentNameTable.read, bind, Except.bind, pure, Except.pure, hres]
  have e11 : runAt ResidentNameTable.read { file := c7file, pos := 130, seeks := [64, 128, 128, 130] } =
      .ok (c7exe.resident_name_table, { file := c7file, pos := 131, seeks := [64, 128, 128, 130] }) := by
    simp only [runAt]
    norm_num [hdrop130, hresread]
    decide
  have e12 : seekStart (c7exe.dos_header.lfanew + c7exe.ne_header.module_reference_table_offset)
        { file := c7file, pos := 131, seeks := [64, 128, 128, 130] } =
      .ok ((), { file := c7file, pos := 131, seeks := [64, 128, 128, 130, 131] }) := by decide
  have e13 : runAt (ModuleReferenceTable.read c7exe.ne_header.module_references)
        { file := c7file, pos := 131, seeks := [64, 128, 128, 130, 131] } =
      .ok (c7exe.module_reference_table,
        { file := c7file, pos := 131, seeks := [64, 128, 128, 130, 131] }) := by decide
  have e14 : ModuleReferenceTable.read_names c7exe.module_reference_table
        (c7exe.dos_header.lfanew + c7exe.ne_header.import_name_table_offset)
        { file := c7file, pos := 131, seeks := [64, 128, 128, 130, 131] } =
      .ok (c7exe.module_reference_table,
        { file := c7file, pos := 131, seeks := [64, 128, 128, 130, 131] }) := by decide
  have e15 : seekStart (c7exe.dos_header.lfanew + c7exe.ne_header.entry_table_offset)
        { file := c7file, pos := 131, seeks := [64, 128, 128, 130, 131] } =
      .ok ((), { file := c7file, pos := 131, seeks := [64, 128, 128, 130, 131, 131] }) := by decide
  have hsfread : EntryTable.read_sf 0 (c7file.drop 131) = .ok ({ entries := [] }, c7file.drop 131) := by
    simp only [EntryTable.read_sf, bind, Except.bind, pure, Except.pure, hsf]
  have e16 : runAt (EntryTable.read_sf c7exe.ne_header.entry_table_length)
        { file := c7file, pos := 131, seeks := [64, 128, 128, 130, 131, 131] } =
      .ok (c7exe.entry_table,
        { file := c7file, pos := 131, seeks := [64, 128, 128, 130, 131, 131] }) := by
    simp only [runAt]
    norm_num [show c7exe.ne_header.entry_table_length = 0 from rfl, hsfread]
    decide
  have e17 : seekStart c7exe.ne_header.non_resident_names_table_offset
        { file := c7file, pos := 131, seeks := [64, 128, 128, 130, 131, 131] } =
      .ok ((), { file := c7file, pos := 131, seeks := [64, 128, 128, 130, 131, 131, 131] }) := by decide
  have hnresread : NonresidentNameTable.read [0] = .ok ({ entries := [] }, []) := by
    simp only [NonresidentNameTable.read, bind, Except.bind, pure, Except.pure, hnres]
  have e18 : runAt NonresidentNameTable.read
        { file := c7file, pos := 131, seeks := [64, 128, 128, 130, 131, 131, 131] } =
      .ok (c7exe.nonresident_name_table,
        { file := c7file, pos := 132, seeks := [64, 128, 128, 130, 131, 131, 131] }) := by
    simp only [runAt]
    norm_num [hdrop131, hnresread]
    decide
  have e19 : readSegmentsData ([] : List NeSegment)
        { file := c7file, pos := 132, seeks := [64, 128, 128, 130, 131, 131, 131] } =
      .ok ((([] : List NeSegment), ([] : List RelocationTable)),
        { file := c7file, pos := 132, seeks := [64, 128, 128, 130, 131, 131, 131] }) := by decide
  unfold NeExecutable.read
  dsimp only [bind, pure]
  simp only [e1, e2, e3, e4, e5, e6, e7, e8, e9, e10, e11, e12, e13, e14, e15, e16, e17,
    e18, e19]
  rfl

/-- Witness for C7 at the 132-byte file `c7file`. -/
theorem c7_seek_bases_witness :
    ∃ dataSeeks,
      ([64, 128, 128, 130, 131, 131, 131] : List Nat) =
        [] ++
        [c7exe.dos_header.lfanew,
         c7exe.dos_header.lfanew + c7exe.ne_header.segment_table_offset,
         c7exe.dos_header.lfanew + c7exe.ne_header.resource_table_offset,
         c7exe.dos_header.lfanew + c7exe.ne_header.resident_names_table_offset,
         c7exe.dos_header.lfanew + c7exe.ne_header.module_reference_table_offset] ++
        c7exe.module_reference_table.entries.map
          (fun e => c7exe.dos_header.lfanew + c7exe.ne_header.import_name_table_offset
            + e.header.offset) ++
        [c7exe.dos_header.lfanew + c7exe.ne_header.entry_table_offset,
         c7exe.ne_header.non_resident_names_table_offset] ++
        dataSeeks :=
  c7_seek_bases { file := c7file, pos := 0, seeks := [] } c7exe
    { file := c7file, pos := 132, seeks := [64, 128, 128, 130, 131, 131, 131] } c7read_eval
